import Mathlib

/-!
The response interceptor of caddy-filter and `RewriteResponse`.

A shallow embedding of `filter.go` (the handler `filterHandler.ServeHTTP` and the
orchestrator `RewriteResponse`) together with the interceptor `responseWriterWrapper`
it drives.  The file `responseWriterWrapper.go` is not among the sources at hand (only its
test-suite `responseWriterWrapper_test.go` and its caller `filter.go` are), so the
interceptor's operations are modelled from the specification; every such definition says so
in its doc comment.

Conventions
* a byte sequence (`[]byte`) is a list of byte values; `nil` and the empty slice are both `[]`;
* Go `int` values (status codes, byte counts, the buffer ceiling) are `Int`;
* a Go `error` is `Option GoError`, `none` being `nil`;
* a method that mutates its receiver returns the new receiver next to its Go results;
* fields whose doc comment says *ghost* do not exist in the program: they log calls so that
  "is called exactly once" and "no write is made" can be stated.
-/

namespace CaddyFilter

/-- A byte sequence, Go `[]byte`. -/
abbrev Bytes := List Nat

/-! ## Collaborators from the Go standard library and from caddy -/

/-- Go error values as far as `filter.go` tells them apart: `fastcgi.LogError` (recognised by
the type assertion at `filter.go:69`), `io.ErrShortWrite` (`filter.go:96`), anything else. -/
inductive GoError where
  | LogError (text : String)
  | ErrShortWrite
  | other (text : String)
deriving DecidableEq, Repr

/-- The header set `http.Header`, a map from a key to its list of values, kept as an
association list whose first entry for a key is the live one.  Keys are taken as already
canonical (`Content-Length` is). -/
abbrev Header := List (String × List String)

/-- The method `http.Header.Get`: the first value stored under the key, `""` when the key is
absent or has no value. -/
def Header.Get (h : Header) (key : String) : String :=
  match h.lookup key with
  | some (v :: _) => v
  | _ => ""

/-- The method `http.Header.Set`: the key now maps to the single value given. -/
def Header.Set (h : Header) (key value : String) : Header :=
  (key, [value]) :: h.filter (fun kv => kv.1 != key)

/-- The method `http.Header.Del`: the key is removed. -/
def Header.Del (h : Header) (key : String) : Header :=
  h.filter (fun kv => kv.1 != key)

/-- Whether the key is present in the header set (a map lookup `_, ok := h[key]`). -/
def Header.Has (h : Header) (key : String) : Bool :=
  (h.lookup key).isSome

/-- The function `strconv.Itoa`: the decimal representation of an integer. -/
def Itoa (i : Int) : String :=
  match i with
  | Int.ofNat n => Nat.repr n
  | Int.negSucc n => "-" ++ Nat.repr (n + 1)

/-- The request, as far as `filter.go` reads it: `request.Method` and `request.Header`. -/
structure Request where
  Method : String
  Header : Header

/-- The real sink, an `http.ResponseWriter`, shaped after `mockResponseWriter`
(`responseWriterWrapper_test.go:169-174`) and generalised in what it answers to a write. -/
structure ResponseWriter where
  /-- The header set returned by `Header()`. -/
  header : Header
  /-- The status last passed to `WriteHeader`, `0` before any call (the mock's `status`). -/
  status : Int
  /-- A ghost log: the status of every `WriteHeader` call, oldest first. -/
  headerCommits : List Int
  /-- A ghost log: the payload of every `Write` call, oldest first, taken or refused. -/
  writes : List Bytes
  /-- The bytes the sink has taken so far (the mock's `buffer`). -/
  buffer : Bytes
  /-- What the sink answers to `Write(content)`, given the payloads it received before. -/
  respond : List Bytes → Bytes → Int × Option GoError

/-- The method `WriteHeader` of the real sink (`responseWriterWrapper_test.go:180-182`). -/
def ResponseWriter.WriteHeader (d : ResponseWriter) (status : Int) : ResponseWriter :=
  { d with status := status, headerCommits := d.headerCommits ++ [status] }

/-- The method `Write` of the real sink (`responseWriterWrapper_test.go:184-189`): the payload
is logged, the sink keeps the first `n` bytes of it, `n` being the count it answers, and the
answer is returned.  For the mock this is its code: with `error` set it answers `(0, error)`
and its buffer keeps nothing, otherwise it answers `(len(content), nil)` and its buffer keeps
the whole payload. -/
def ResponseWriter.Write (d : ResponseWriter) (content : Bytes) :
    ResponseWriter × (Int × Option GoError) :=
  ({ d with
      writes := d.writes ++ [content]
      buffer := d.buffer ++ content.take (d.respond d.writes content).1.toNat },
    d.respond d.writes content)

/-- The function `newMockResponseWriter` (`responseWriterWrapper_test.go:162-167`) with the
mock's `error` field as argument: a sink that takes every write whole, or fails every write
with the error given (`responseWriterWrapper_test.go:185-188`). -/
def newMockResponseWriter (error : Option GoError) : ResponseWriter :=
  { header := [], status := 0, headerCommits := [], writes := [], buffer := [],
    respond := fun _ content =>
      match error with
      | some e => (0, some e)
      | none => ((content.length : Int), none) }

/-! ## The interceptor `responseWriterWrapper` (modelled from the specification) -/

/-- Modelled from the spec: the type `responseWriterWrapper` of `responseWriterWrapper.go`,
which is missing.  The fields are those of the spec's ResponseState that `filter.go` and the
test-suite name (`delegate`, `buffer`, `beforeFirstWrite`, `bodyAllowed`,
`firstContentWritten`, `statusSetAtDelegate`, `maximumBufferSize`, `skipped`).  The spec's
`recordingDecided` is `firstContentWritten` and its `recording` is the presence of `buffer`.
The should-record predicate receives the interceptor as an `http.ResponseWriter`, through which
the one thing it can read is `Header()`, so it is a function of the header set. -/
structure responseWriterWrapper where
  skipped : Bool
  delegate : ResponseWriter
  buffer : Option Bytes
  beforeFirstWrite : Header → Bool
  bodyAllowed : Bool
  firstContentWritten : Bool
  statusSetAtDelegate : Int
  maximumBufferSize : Int
  /-- A ghost counter: how often `beforeFirstWrite` was invoked (what the closure variable
  `beforeFirstWriteCalled` of the test-suite observes). -/
  beforeFirstWriteCalls : Nat

/-- Modelled from the spec: the constructor `newResponseWriterWrapperFor` of the missing
`responseWriterWrapper.go`, as `Test_newResponseWriterWrapperFor` pins it down: the delegate
and the predicate as given, no buffer, `bodyAllowed` true, `firstContentWritten` false.  The
spec constructs the interceptor "with the given predicate and ceiling" and names no default
ceiling, so the ceiling that `filter.go:57` and the test-suite assign right after construction
is the third argument here. -/
def newResponseWriterWrapperFor (delegate : ResponseWriter) (beforeFirstWrite : Header → Bool)
    (maximumBufferSize : Int) : responseWriterWrapper :=
  { skipped := false
    delegate := delegate
    buffer := none
    beforeFirstWrite := beforeFirstWrite
    bodyAllowed := true
    firstContentWritten := false
    statusSetAtDelegate := 0
    maximumBufferSize := maximumBufferSize
    beforeFirstWriteCalls := 0 }

/-- Modelled from the spec: the function `bodyAllowedForStatus` of the missing
`responseWriterWrapper.go`: "false for all 1xx informational codes, 204 (No Content), and 304
(Not Modified); true for all other codes". -/
def bodyAllowedForStatus (status : Int) : Bool :=
  if 100 ≤ status ∧ status ≤ 199 then false
  else if status = 204 then false
  else if status = 304 then false
  else true

/-- Modelled from the spec: the method `Header` of the missing `responseWriterWrapper.go`.
`Test_Header` shows it to be the delegate's header map, which stays in memory until the
delegate's `WriteHeader` is called. -/
def responseWriterWrapper.Header (w : responseWriterWrapper) : Header :=
  w.delegate.header

/-- The effect of mutating the map returned by `Header()`: the interceptor with the header set
replaced. -/
def responseWriterWrapper.withHeader (w : responseWriterWrapper) (h : CaddyFilter.Header) :
    responseWriterWrapper :=
  { w with delegate := { w.delegate with header := h } }

/-- Modelled from the spec: the method `WriteHeader` of the missing `responseWriterWrapper.go`
(the spec's `setStatus`): "records `statusSetAtDelegate = code`; recomputes
`bodyAllowed = bodyAllowedForStatus(code)`.  Does not write anything to the real sink yet". -/
def responseWriterWrapper.WriteHeader (w : responseWriterWrapper) (status : Int) :
    responseWriterWrapper :=
  { w with statusSetAtDelegate := status, bodyAllowed := bodyAllowedForStatus status }

/-- Modelled from the spec: the method `Write` of the missing `responseWriterWrapper.go`.
* An empty write before the first non-empty one returns `(0, nil)` and changes nothing.
* The first write carrying a byte invokes the should-record predicate once: a buffer is
  created when it answers true; `firstContentWritten` is set.
* Passthrough (no buffer): the write is forwarded to the real sink and its answer returned.
* Recording: when appending would not exceed `maximumBufferSize` the bytes are appended and
  `(len(content), nil)` returned; otherwise one write of the buffer followed by the incoming
  bytes goes to the real sink, the buffer is dropped and the interceptor is in passthrough.
  The spec does not say what the overflowing write returns; the sink's answer is taken. -/
def responseWriterWrapper.Write (w : responseWriterWrapper) (content : Bytes) :
    responseWriterWrapper × (Int × Option GoError) :=
  if !w.firstContentWritten && content.isEmpty then (w, (0, none))
  else
    let w1 : responseWriterWrapper :=
      if w.firstContentWritten then w
      else
        { w with
          firstContentWritten := true
          beforeFirstWriteCalls := w.beforeFirstWriteCalls + 1
          buffer := if w.beforeFirstWrite w.Header then some [] else none }
    match w1.buffer with
    | none =>
      let out := w1.delegate.Write content
      ({ w1 with delegate := out.1 }, out.2)
    | some b =>
      if ((b.length : Int) + (content.length : Int)) > w1.maximumBufferSize then
        let out := w1.delegate.Write (b ++ content)
        ({ w1 with delegate := out.1, buffer := none }, out.2)
      else
        ({ w1 with buffer := some (b ++ content) }, ((content.length : Int), none))

/-- Modelled from the spec: the method `recorded` of the missing `responseWriterWrapper.go`:
"returns the current buffer contents (empty sequence if none or not recording)". -/
def responseWriterWrapper.recorded (w : responseWriterWrapper) : Bytes :=
  match w.buffer with
  | some b => b
  | none => []

/-- Modelled from the spec: the method `wasSomethingRecorded` of the missing
`responseWriterWrapper.go`.  The spec gives it through examples only (true once bytes are
buffered, false in passthrough and after the overflow flush): a buffer is present and holds
at least one byte. -/
def responseWriterWrapper.wasSomethingRecorded (w : responseWriterWrapper) : Bool :=
  match w.buffer with
  | some b => !b.isEmpty
  | none => false

/-- Modelled from the spec: the method `isBodyAllowed` of the missing
`responseWriterWrapper.go`: the field `bodyAllowed`, "derived from `statusSetAtDelegate`". -/
def responseWriterWrapper.isBodyAllowed (w : responseWriterWrapper) : Bool :=
  w.bodyAllowed

/-- The interceptor right after the recording decision was taken, before the bytes of the
first non-empty write are handled. -/
def decided (w : responseWriterWrapper) : responseWriterWrapper :=
  { w with
    firstContentWritten := true
    beforeFirstWriteCalls := w.beforeFirstWriteCalls + 1
    buffer := if w.beforeFirstWrite w.Header then some [] else none }

/-- A handler's successive `Write` calls on the interceptor: the final interceptor and the
result of every call, in order. -/
def writeAll : responseWriterWrapper → List Bytes →
    responseWriterWrapper × List (Int × Option GoError)
  | w, [] => (w, [])
  | w, c :: cs =>
    let out := w.Write c
    let rest := writeAll out.1 cs
    (rest.1, out.2 :: rest.2)

/-- A handler's successive `WriteHeader` calls on the interceptor. -/
def writeHeaderAll (w : responseWriterWrapper) (statuses : List Int) : responseWriterWrapper :=
  statuses.foldl responseWriterWrapper.WriteHeader w

/-! ## `filter.go` -/

/-- Modelled from the spec: the type `rule`, declared in a file that is missing.  A rule has
the two capabilities `matches(request, headers) → bool` and
`execute(request, headers, body) → body'`; `execute` "may read/mutate headers as a side
effect", so it returns the header set it leaves behind next to the new body. -/
structure rule where
  «matches» : Request → Header → Bool
  execute : Request → Header → Bytes → Header × Bytes

/-- The methods of the missing `responseWriterWrapper.go` that `filter.go` calls and that the
spec names without fixing what they compute (content encoding, the commit of the headers, the
interception test).  They are parameters of everything below. -/
structure wrapperMethods where
  isInterceptingRequired : responseWriterWrapper → Bool
  writeHeadersToDelegate : responseWriterWrapper → Int → responseWriterWrapper
  writeToDelegateAndEncodeIfRequired :
    responseWriterWrapper → Bytes → Int → responseWriterWrapper × (Int × Option GoError)
  writeRecordedToDelegate :
    responseWriterWrapper → Int → responseWriterWrapper × (Int × Option GoError)
  RecordedAndDecodeIfRequired : responseWriterWrapper → Bytes

/-- The downstream handler `httpserver.Handler`, an external program: what its `ServeHTTP`
does and returns when it is handed the real sink, and when it is handed the interceptor. -/
structure Handler where
  serveSink : ResponseWriter → Request → ResponseWriter × (Int × Option GoError)
  serveWrapper :
    responseWriterWrapper → Request → responseWriterWrapper × (Int × Option GoError)

/-- The struct `filterHandler` (`filter.go:14-18`). -/
structure filterHandler where
  next : Handler
  rules : List rule
  maximumBufferSize : Int

/-- The type assertion `err.(fastcgi.LogError)` (`filter.go:69`): the error itself when it is
a `LogError`, nothing otherwise. -/
def asLogError : GoError → Option GoError
  | GoError.LogError text => some (GoError.LogError text)
  | _ => none

/-- The loop of the should-record closure (`filter.go:27-32`): true at the first rule that
matches, false when the rules are exhausted. -/
def beforeFirstWriteLoop (request : Request) (header : Header) : List rule → Bool
  | [] => false
  | r :: rest => if r.matches request header then true else beforeFirstWriteLoop request header rest

/-- The should-record closure that `ServeHTTP` passes to `RewriteResponse`
(`filter.go:25-33`). -/
def filterHandler.beforeFirstWrite (self : filterHandler) (request : Request)
    (header : Header) : Bool :=
  beforeFirstWriteLoop request header self.rules

/-- The local variables of the body-retrieval closure (`filter.go:34-36`), with a ghost
counter of the calls of `RecordedAndDecodeIfRequired`. -/
structure retrieval where
  header : Header
  body : Bytes
  bodyRetrieved : Bool
  decodeCalls : Nat

/-- The loop of the body-retrieval closure (`filter.go:38-46`). -/
def bodyIsRetrievedLoop (m : wrapperMethods) (request : Request)
    (wrapperd : responseWriterWrapper) : List rule → retrieval → retrieval
  | [], s => s
  | r :: rest, s =>
    if r.matches request s.header then
      let s1 : retrieval :=
        if !s.bodyRetrieved then
          { s with
            body := m.RecordedAndDecodeIfRequired (wrapperd.withHeader s.header)
            bodyRetrieved := true
            decodeCalls := s.decodeCalls + 1 }
        else s
      let out := r.execute request s1.header s1.body
      bodyIsRetrievedLoop m request wrapperd rest { s1 with header := out.1, body := out.2 }
    else bodyIsRetrievedLoop m request wrapperd rest s

/-- The body-retrieval closure (`filter.go:33-47`) up to its `return`: the local variables
after the loop. -/
def filterHandler.retrieve (self : filterHandler) (m : wrapperMethods) (request : Request)
    (wrapper : responseWriterWrapper) : retrieval :=
  bodyIsRetrievedLoop m request wrapper self.rules
    { header := wrapper.Header, body := [], bodyRetrieved := false, decodeCalls := 0 }

/-- The body-retrieval closure that `ServeHTTP` passes to `RewriteResponse`
(`filter.go:33-47`): the interceptor with the header set as the rules left it, and the pair
`(bodyRetrieved, body)`. -/
def filterHandler.bodyIsRetrieved (self : filterHandler) (m : wrapperMethods)
    (request : Request) (wrapper : responseWriterWrapper) :
    responseWriterWrapper × (Bool × Bytes) :=
  let s := self.retrieve m request wrapper
  (wrapper.withHeader s.header, (s.bodyRetrieved, s.body))

/-- A ghost record of what `RewriteResponse` does after the handler returned, one entry per
call it makes (`filter.go:74`, `80`, `86`, `88`, `90`). -/
inductive Step where
  | writeHeadersToDelegate (status : Int)
  | bodyIsRetrieved
  | setContentLength (value : String)
  | writeToDelegateAndEncodeIfRequired (body : Bytes) (status : Int)
  | writeRecordedToDelegate (status : Int)
deriving DecidableEq, Repr

/-- What a run of `RewriteResponse` leaves behind: the interceptor (and in it the real sink),
the ghost record of the finalization calls, and the returned pair `(int, error)`. -/
structure Outcome where
  wrapper : responseWriterWrapper
  steps : List Step
  result : Int
  err : Option GoError

/-- The function `RewriteResponse` (`filter.go:51-99`).  `len(oldContentLength) > 0` is the
test that the string is not empty. -/
def RewriteResponse (m : wrapperMethods) (writer : ResponseWriter) (request : Request)
    (beforeFirstWrite : Header → Bool)
    (bodyIsRetrieved : responseWriterWrapper → responseWriterWrapper × (Bool × Bytes))
    (maximumBufferSize : Int) (next : Handler) : Outcome :=
  let wrapper := newResponseWriterWrapperFor writer beforeFirstWrite maximumBufferSize
  let served := next.serveWrapper wrapper request
  let wrapper := served.1
  let result := served.2.1
  let err := served.2.2
  if wrapper.skipped then
    { wrapper := wrapper, steps := [], result := result, err := err }
  else
    let logError : Option GoError := err.bind asLogError
    if err.isSome && logError.isNone then
      { wrapper := wrapper, steps := [], result := result, err := err }
    else if !m.isInterceptingRequired wrapper || !wrapper.isBodyAllowed then
      { wrapper := m.writeHeadersToDelegate wrapper result
        steps := [Step.writeHeadersToDelegate result]
        result := result, err := logError }
    else if !wrapper.isBodyAllowed then
      { wrapper := wrapper, steps := [], result := result, err := logError }
    else
      let got := bodyIsRetrieved wrapper
      let wrapper := got.1
      let bodyRetrieved := got.2.1
      let body := got.2.2
      let wrote : responseWriterWrapper × List Step × (Int × Option GoError) :=
        if bodyRetrieved then
          let oldContentLength := wrapper.Header.Get "Content-Length"
          let updated : responseWriterWrapper × List Step :=
            if oldContentLength.length > 0 then
              let newContentLength := Itoa (body.length : Int)
              (wrapper.withHeader (wrapper.Header.Set "Content-Length" newContentLength),
                [Step.setContentLength newContentLength])
            else (wrapper, [])
          let out := m.writeToDelegateAndEncodeIfRequired updated.1 body result
          (out.1, [Step.bodyIsRetrieved] ++ updated.2 ++
            [Step.writeToDelegateAndEncodeIfRequired body result], out.2)
        else
          let out := m.writeRecordedToDelegate wrapper result
          (out.1, [Step.bodyIsRetrieved, Step.writeRecordedToDelegate result], out.2)
      let n := wrote.2.2.1
      match wrote.2.2.2 with
      | some err =>
        { wrapper := wrote.1, steps := wrote.2.1, result := result, err := some err }
      | none =>
        if n < (body.length : Int) then
          { wrapper := wrote.1, steps := wrote.2.1, result := result
            err := some GoError.ErrShortWrite }
        else
          { wrapper := wrote.1, steps := wrote.2.1, result := result, err := logError }

/-- The method `filterHandler.ServeHTTP` (`filter.go:20-49`): the downstream handler on the
real sink for a websocket upgrade request (the left alternative: the sink afterwards and the
returned pair), `RewriteResponse` otherwise. -/
def filterHandler.ServeHTTP (self : filterHandler) (m : wrapperMethods)
    (writer : ResponseWriter) (request : Request) :
    (ResponseWriter × (Int × Option GoError)) ⊕ Outcome :=
  if request.Method == "GET" && request.Header.Get "Upgrade" == "websocket" then
    Sum.inl (self.next.serveSink writer request)
  else
    Sum.inr (RewriteResponse m writer request (self.beforeFirstWrite request)
      (self.bodyIsRetrieved m request) self.maximumBufferSize self.next)

/-- The real sink handed a sequence of payloads directly: the sink afterwards and its answer
to every write, in order. -/
def ResponseWriter.writeAll : ResponseWriter → List Bytes →
    ResponseWriter × List (Int × Option GoError)
  | d, [] => (d, [])
  | d, c :: cs =>
    let out := d.Write c
    let rest := ResponseWriter.writeAll out.1 cs
    (rest.1, out.2 :: rest.2)

/-! ## Concrete collaborators, for running the definitions on examples -/

/-- One choice of the parameter methods, without content encoding, for running
`RewriteResponse` on examples: interception is required when a buffer is present; the commit
hands the status set by the handler (the returned status when none was set) to the real sink;
the two writes commit and then hand the body, or the recorded bytes, to the real sink. -/
def plainMethods : wrapperMethods :=
  { isInterceptingRequired := fun w => w.buffer.isSome
    writeHeadersToDelegate := fun w status =>
      let committed := if w.statusSetAtDelegate = 0 then status else w.statusSetAtDelegate
      { w with delegate := w.delegate.WriteHeader committed }
    writeToDelegateAndEncodeIfRequired := fun w body status =>
      let committed := if w.statusSetAtDelegate = 0 then status else w.statusSetAtDelegate
      let out := (w.delegate.WriteHeader committed).Write body
      ({ w with delegate := out.1 }, out.2)
    writeRecordedToDelegate := fun w status =>
      let committed := if w.statusSetAtDelegate = 0 then status else w.statusSetAtDelegate
      let out := (w.delegate.WriteHeader committed).Write w.recorded
      ({ w with delegate := out.1 }, out.2)
    RecordedAndDecodeIfRequired := fun w => w.recorded }

/-- The bytes of `"foo"`. -/
def foo : Bytes := [102, 111, 111]

/-- The bytes of `"bar"`. -/
def bar : Bytes := [98, 97, 114]

/-- The interceptor of `Test_WriteWithBufferOverflow` after its first write: a predicate that
always records, the ceiling 5, and `"foo"` written. -/
def overflowExample : responseWriterWrapper :=
  ((newResponseWriterWrapperFor (newMockResponseWriter none) (fun _ => true) 5).Write foo).1

/-- A handler that writes the chunks given to the sink it is handed and returns the pair
given. -/
def scriptedHandler (chunks : List Bytes) (status : Int) (err : Option GoError) : Handler :=
  { serveSink := fun d _ => ((d.writeAll chunks).1, (status, err))
    serveWrapper := fun w _ => ((writeAll w chunks).1, (status, err)) }

/-! ## Definitions used to state the claims on `filter.go` -/

/-- The rule chain in the words of the spec (§4.3): every matching rule executes, in
registration order, each receiving the body (and the header set) the previous one produced; a
rule with no match contributes nothing. -/
def applyRules (request : Request) (rules : List rule) (start : Header × Bytes) :
    Header × Bytes :=
  rules.foldl
    (fun (hb : Header × Bytes) (r : rule) =>
      if r.matches request hb.1 then r.execute request hb.1 hb.2 else hb)
    start

/-- The interceptor after `filter.go:83-87`: `Content-Length` is set to the decimal length of
the body when the value read from the header set is not empty, and nothing changes
otherwise. -/
def withNewContentLength (w : responseWriterWrapper) (body : Bytes) : responseWriterWrapper :=
  if (w.Header.Get "Content-Length").length > 0 then
    w.withHeader (w.Header.Set "Content-Length" (Itoa (body.length : Int)))
  else w

/-- The interceptor as the downstream handler leaves it in a run of `RewriteResponse`
(`filter.go:56-58`), with the pair the handler returns. -/
def served (writer : ResponseWriter) (request : Request) (beforeFirstWrite : Header → Bool)
    (maximumBufferSize : Int) (next : Handler) :
    responseWriterWrapper × (Int × Option GoError) :=
  next.serveWrapper (newResponseWriterWrapperFor writer beforeFirstWrite maximumBufferSize)
    request

/-- The bytes of `"hello"`. -/
def hello : Bytes := [104, 101, 108, 108, 111]

/-- The bytes of `"HELLO!"`. -/
def helloShouted : Bytes := [72, 69, 76, 76, 79, 33]

/-- A request `GET /` without headers. -/
def plainRequest : Request := { Method := "GET", Header := [] }

/-- Rule A of the spec's chaining example: it matches every response and turns the lower-case
letters of the body into upper case. -/
def ruleUpper : rule :=
  { «matches» := fun _ _ => true
    execute := fun _ h body => (h, body.map (fun x => if 97 ≤ x ∧ x ≤ 122 then x - 32 else x)) }

/-- Rule B of the spec's chaining example: it matches every response and appends `"!"`. -/
def ruleBang : rule :=
  { «matches» := fun _ _ => true
    execute := fun _ h body => (h, body ++ [33]) }

/-- A rule that matches no response; it would erase the body. -/
def ruleNever : rule :=
  { «matches» := fun _ _ => false
    execute := fun _ h _ => (h, []) }

/-- A rule that matches every response and whose `execute` removes `Content-Length` from the
header set, leaving the body as it is. -/
def ruleDropLength : rule :=
  { «matches» := fun _ _ => true
    execute := fun _ h body => (h.Del "Content-Length", body) }

/-- A sink like the mock's whose header set holds the given `Content-Length` values. -/
def sinkWithLength (values : List String) : ResponseWriter :=
  { newMockResponseWriter none with header := [("Content-Length", values)] }

/-- A sink that reports `n` bytes written, without error, whatever it is handed. -/
def shortSink (n : Int) : ResponseWriter :=
  { newMockResponseWriter none with respond := fun _ _ => (n, none) }

/-- An interceptor in Recording mode that holds `"hello"`: fresh over the mock sink, a
predicate that always records, the ceiling 100, and `"hello"` written. -/
def helloRecorded : responseWriterWrapper :=
  (writeAll (newResponseWriterWrapperFor (newMockResponseWriter none) (fun _ => true) 100)
    [hello]).1

/-- A filter handler over the rules given, with the ceiling 100, whose downstream handler
writes the chunks given and returns the pair given. -/
def exampleHandler (rules : List rule) (chunks : List Bytes) (status : Int)
    (err : Option GoError) : filterHandler :=
  { next := scriptedHandler chunks status err, rules := rules, maximumBufferSize := 100 }

/-- The run of `RewriteResponse` that `exampleHandler` makes on the sink given. -/
def exampleRun (writer : ResponseWriter) (rules : List rule) (chunks : List Bytes)
    (status : Int) (err : Option GoError) : Outcome :=
  RewriteResponse plainMethods writer plainRequest
    ((exampleHandler rules chunks status err).beforeFirstWrite plainRequest)
    ((exampleHandler rules chunks status err).bodyIsRetrieved plainMethods plainRequest)
    100 (scriptedHandler chunks status err)

/-- The interceptor as the scripted handler of `exampleRun` leaves it, with the pair it
returns. -/
def exampleServed (writer : ResponseWriter) (rules : List rule) (chunks : List Bytes)
    (status : Int) (err : Option GoError) : responseWriterWrapper × (Int × Option GoError) :=
  served writer plainRequest
    ((exampleHandler rules chunks status err).beforeFirstWrite plainRequest) 100
    (scriptedHandler chunks status err)

/-- The body-retrieval closure of `exampleRun`. -/
def exampleClosure (rules : List rule) (chunks : List Bytes) (status : Int)
    (err : Option GoError) : responseWriterWrapper → responseWriterWrapper × (Bool × Bytes) :=
  (exampleHandler rules chunks status err).bodyIsRetrieved plainMethods plainRequest

/-! ## Definitions used to state the claims on reachable states and on the return paths -/

/-- A call that a handler makes on the sink it is handed: `Write(content)` or
`WriteHeader(status)`. -/
inductive Call where
  | Write (content : Bytes)
  | WriteHeader (status : Int)
deriving DecidableEq, Repr

/-- The interceptor after one call of the handler. -/
def applyCall (w : responseWriterWrapper) : Call → responseWriterWrapper
  | Call.Write content => (w.Write content).1
  | Call.WriteHeader status => w.WriteHeader status

/-- The interceptor after a sequence of calls of the handler, oldest first. -/
def runCalls (w : responseWriterWrapper) (calls : List Call) : responseWriterWrapper :=
  calls.foldl applyCall w

/-- The real sink after one call of the handler. -/
def ResponseWriter.applyCall (d : ResponseWriter) : Call → ResponseWriter
  | Call.Write content => (d.Write content).1
  | Call.WriteHeader status => d.WriteHeader status

/-- A handler that makes the calls given on the sink it is handed and returns the pair
given. -/
def callsHandler (calls : List Call) (status : Int) (err : Option GoError) : Handler :=
  { serveSink := fun d _ => (calls.foldl ResponseWriter.applyCall d, (status, err))
    serveWrapper := fun w _ => (runCalls w calls, (status, err)) }

/-- The function `RewriteResponse` with the second body-allowed check (`filter.go:77-79`)
removed and nothing else changed: the function that `RewriteResponse` is compared with. -/
def RewriteResponseWithoutSecondCheck (m : wrapperMethods) (writer : ResponseWriter)
    (request : Request) (beforeFirstWrite : Header → Bool)
    (bodyIsRetrieved : responseWriterWrapper → responseWriterWrapper × (Bool × Bytes))
    (maximumBufferSize : Int) (next : Handler) : Outcome :=
  let wrapper := newResponseWriterWrapperFor writer beforeFirstWrite maximumBufferSize
  let served := next.serveWrapper wrapper request
  let wrapper := served.1
  let result := served.2.1
  let err := served.2.2
  if wrapper.skipped then
    { wrapper := wrapper, steps := [], result := result, err := err }
  else
    let logError : Option GoError := err.bind asLogError
    if err.isSome && logError.isNone then
      { wrapper := wrapper, steps := [], result := result, err := err }
    else if !m.isInterceptingRequired wrapper || !wrapper.isBodyAllowed then
      { wrapper := m.writeHeadersToDelegate wrapper result
        steps := [Step.writeHeadersToDelegate result]
        result := result, err := logError }
    else
      let got := bodyIsRetrieved wrapper
      let wrapper := got.1
      let bodyRetrieved := got.2.1
      let body := got.2.2
      let wrote : responseWriterWrapper × List Step × (Int × Option GoError) :=
        if bodyRetrieved then
          let oldContentLength := wrapper.Header.Get "Content-Length"
          let updated : responseWriterWrapper × List Step :=
            if oldContentLength.length > 0 then
              let newContentLength := Itoa (body.length : Int)
              (wrapper.withHeader (wrapper.Header.Set "Content-Length" newContentLength),
                [Step.setContentLength newContentLength])
            else (wrapper, [])
          let out := m.writeToDelegateAndEncodeIfRequired updated.1 body result
          (out.1, [Step.bodyIsRetrieved] ++ updated.2 ++
            [Step.writeToDelegateAndEncodeIfRequired body result], out.2)
        else
          let out := m.writeRecordedToDelegate wrapper result
          (out.1, [Step.bodyIsRetrieved, Step.writeRecordedToDelegate result], out.2)
      let n := wrote.2.2.1
      match wrote.2.2.2 with
      | some err =>
        { wrapper := wrote.1, steps := wrote.2.1, result := result, err := some err }
      | none =>
        if n < (body.length : Int) then
          { wrapper := wrote.1, steps := wrote.2.1, result := result
            err := some GoError.ErrShortWrite }
        else
          { wrapper := wrote.1, steps := wrote.2.1, result := result, err := logError }

/-- What a run of `RewriteResponse` returns for the error, given what the same run returns when
the handler's error is nil instead of the soft error `soft`: the soft error when that run
returns nil, the error of that run otherwise. -/
def deferred (soft : GoError) : Option GoError → Option GoError
  | none => some soft
  | some e => some e

/-- A websocket upgrade request: `GET` with `Upgrade: websocket`. -/
def websocketRequest : Request :=
  { Method := "GET", Header := [("Upgrade", ["websocket"])] }

/-- A rule that matches when the response header `X-Filter` is `on`; it turns the lower-case
letters of the body into upper case. -/
def ruleIfFlagged : rule :=
  { «matches» := fun _ h => h.Get "X-Filter" == "on"
    execute := fun _ h body => (h, body.map (fun x => if 97 ≤ x ∧ x ≤ 122 then x - 32 else x)) }

/-- A handler that sets the response header `X-Filter: on`, writes `"hello"`, removes the
header again and returns the status 200 with the error given. -/
def flipHandler (err : Option GoError) : Handler :=
  { serveSink := fun d _ =>
      ({ (({ d with header := d.header.Set "X-Filter" "on" } : ResponseWriter).Write hello).1
          with header := d.header.Del "X-Filter" }, (200, err))
    serveWrapper := fun w _ =>
      ((((w.withHeader (w.Header.Set "X-Filter" "on")).Write hello).1).withHeader
        (w.Header.Del "X-Filter"), (200, err)) }

/-- The filter handler over `ruleIfFlagged` and `flipHandler`, with the ceiling 100. -/
def flipFilter (err : Option GoError) : filterHandler :=
  { next := flipHandler err, rules := [ruleIfFlagged], maximumBufferSize := 100 }

/-- The run of `RewriteResponse` that `flipFilter` makes on the sink given. -/
def flipRun (writer : ResponseWriter) (err : Option GoError) : Outcome :=
  RewriteResponse plainMethods writer plainRequest
    ((flipFilter err).beforeFirstWrite plainRequest)
    ((flipFilter err).bodyIsRetrieved plainMethods plainRequest) 100 (flipHandler err)

/-- A handler that sets the status 204, leaves the interceptor marked `skipped` and returns
`(204, nil)`. -/
def skippingHandler : Handler :=
  { serveSink := fun d _ => (d.WriteHeader 204, (204, none))
    serveWrapper := fun w _ => ({ w.WriteHeader 204 with skipped := true }, (204, none)) }

/-! ## Lemmas on `Write`, one per mode -/

theorem Write_init_empty (w : responseWriterWrapper) (h : w.firstContentWritten = false) :
    w.Write [] = (w, (0, none)) := by
  simp [responseWriterWrapper.Write, h]

theorem Write_passthrough (w : responseWriterWrapper) (c : Bytes)
    (h : w.firstContentWritten = true) (hb : w.buffer = none) :
    w.Write c = ({ w with delegate := (w.delegate.Write c).1 }, (w.delegate.Write c).2) := by
  simp [responseWriterWrapper.Write, h, hb]

theorem Write_recording_fits (w : responseWriterWrapper) (b c : Bytes)
    (h : w.firstContentWritten = true) (hb : w.buffer = some b)
    (hfit : (b.length : Int) + (c.length : Int) ≤ w.maximumBufferSize) :
    w.Write c = ({ w with buffer := some (b ++ c) }, ((c.length : Int), none)) := by
  have hnot : ¬ (w.maximumBufferSize < (b.length : Int) + (c.length : Int)) := not_lt.mpr hfit
  simp [responseWriterWrapper.Write, h, hb, hnot]

theorem Write_recording_overflow (w : responseWriterWrapper) (b c : Bytes)
    (h : w.firstContentWritten = true) (hb : w.buffer = some b)
    (hover : (b.length : Int) + (c.length : Int) > w.maximumBufferSize) :
    w.Write c =
      ({ w with delegate := (w.delegate.Write (b ++ c)).1, buffer := none },
        (w.delegate.Write (b ++ c)).2) := by
  have hlt : w.maximumBufferSize < (b.length : Int) + (c.length : Int) := hover
  simp [responseWriterWrapper.Write, h, hb, hlt]

theorem Write_first (w : responseWriterWrapper) (c : Bytes)
    (h : w.firstContentWritten = false) (hc : c ≠ []) :
    w.Write c = (decided w).Write c := by
  have hne : c.isEmpty = false := by
    cases c with
    | nil => exact absurd rfl hc
    | cons x xs => rfl
  simp [responseWriterWrapper.Write, decided, h, hne]

theorem Write_decided_frame (w : responseWriterWrapper) (c : Bytes)
    (h : w.firstContentWritten = true) :
    (w.Write c).1.firstContentWritten = true ∧
      (w.Write c).1.beforeFirstWriteCalls = w.beforeFirstWriteCalls ∧
      (w.buffer = none → (w.Write c).1.buffer = none) := by
  cases hb : w.buffer with
  | none => simp [Write_passthrough w c h hb, h, hb]
  | some b =>
    by_cases hover : (b.length : Int) + (c.length : Int) > w.maximumBufferSize
    · simp [Write_recording_overflow w b c h hb hover, h]
    · simp [Write_recording_fits w b c h hb (not_lt.mp hover), h]

/-! ## Lemmas on sequences of writes -/

theorem sink_writeAll_frame (cs : List Bytes) (d : ResponseWriter) :
    (d.writeAll cs).1.writes = d.writes ++ cs ∧ (d.writeAll cs).1.header = d.header ∧
      (d.writeAll cs).1.status = d.status ∧
      (d.writeAll cs).1.headerCommits = d.headerCommits := by
  induction cs generalizing d with
  | nil => simp [ResponseWriter.writeAll]
  | cons c cs ih =>
    obtain ⟨h1, h2, h3, h4⟩ := ih (d.Write c).1
    simp only [ResponseWriter.writeAll]
    refine ⟨?_, ?_, ?_, ?_⟩
    · rw [h1]; simp [ResponseWriter.Write]
    · rw [h2]; rfl
    · rw [h3]; rfl
    · rw [h4]; rfl

theorem writeAll_passthrough (cs : List Bytes) (w : responseWriterWrapper)
    (h : w.firstContentWritten = true) (hb : w.buffer = none) :
    writeAll w cs =
      ({ w with delegate := (w.delegate.writeAll cs).1 }, (w.delegate.writeAll cs).2) := by
  induction cs generalizing w with
  | nil => simp [writeAll, ResponseWriter.writeAll]
  | cons c cs ih =>
    have hstep := Write_passthrough w c h hb
    simp only [writeAll, ResponseWriter.writeAll, hstep]
    rw [ih { w with delegate := (w.delegate.Write c).1 } h hb]

theorem writeAll_recording_fits (cs : List Bytes) (w : responseWriterWrapper) (b : Bytes)
    (h : w.firstContentWritten = true) (hb : w.buffer = some b)
    (hfit : (b.length : Int) + (cs.flatten.length : Int) ≤ w.maximumBufferSize) :
    writeAll w cs =
      ({ w with buffer := some (b ++ cs.flatten) },
        cs.map (fun c => ((c.length : Int), (none : Option GoError)))) := by
  induction cs generalizing w b with
  | nil => simp [writeAll, ← hb]
  | cons c cs ih =>
    have hlen : ((c :: cs).flatten.length : Int) = (c.length : Int) + (cs.flatten.length : Int) := by
      simp
    have hc : (b.length : Int) + (c.length : Int) ≤ w.maximumBufferSize := by
      have : (0 : Int) ≤ (cs.flatten.length : Int) := Int.natCast_nonneg _
      omega
    have hstep := Write_recording_fits w b c h hb hc
    have hrest : ((b ++ c).length : Int) + (cs.flatten.length : Int) ≤
        ({ w with buffer := some (b ++ c) } : responseWriterWrapper).maximumBufferSize := by
      simp only [List.length_append, Nat.cast_add]
      omega
    simp only [writeAll, hstep]
    rw [ih { w with buffer := some (b ++ c) } (b ++ c) h rfl hrest]
    simp

theorem writeAll_init_empty (w : responseWriterWrapper) (cs : List Bytes)
    (h : w.firstContentWritten = false) :
    writeAll w ([] :: cs) = ((writeAll w cs).1, (0, none) :: (writeAll w cs).2) := by
  simp [writeAll, Write_init_empty w h]

theorem writeAll_init_first (w : responseWriterWrapper) (c : Bytes) (cs : List Bytes)
    (h : w.firstContentWritten = false) (hc : c ≠ []) :
    writeAll w (c :: cs) = writeAll (decided w) (c :: cs) := by
  simp [writeAll, Write_first w c h hc]

/-! ## The claims on the interceptor -/

/-- C1. Overflow fallback of `Write`: in Recording mode with buffer contents `b`, a chunk `c`
with `len(b) + len(c) > maximumBufferSize` makes exactly one write to the real sink, whose
payload is `b` followed by `c` (so the bytes handed to the sink grow by `b ++ c`, nothing is
dropped);
afterwards `recorded()` is empty and `wasSomethingRecorded()` is false, and every later write
is forwarded to the real sink, the buffer staying absent. -/
theorem Write_overflow_fallback (w : responseWriterWrapper) (b c : Bytes)
    (hmode : w.firstContentWritten = true) (hbuf : w.buffer = some b)
    (hover : (b.length : Int) + (c.length : Int) > w.maximumBufferSize) :
    (w.Write c).1.delegate.writes = w.delegate.writes ++ [b ++ c] ∧
      (w.Write c).1.delegate.writes.flatten = w.delegate.writes.flatten ++ (b ++ c) ∧
      (w.Write c).1.recorded = [] ∧
      (w.Write c).1.wasSomethingRecorded = false ∧
      ∀ later : List Bytes,
        (writeAll (w.Write c).1 later).1.delegate.writes =
            w.delegate.writes ++ [b ++ c] ++ later ∧
          (writeAll (w.Write c).1 later).1.buffer = none ∧
          (writeAll (w.Write c).1 later).1.recorded = [] ∧
          (writeAll (w.Write c).1 later).2 = ((w.Write c).1.delegate.writeAll later).2 := by
  have hstep := Write_recording_overflow w b c hmode hbuf hover
  have hw : (w.Write c).1.delegate.writes = w.delegate.writes ++ [b ++ c] := by
    rw [hstep]; rfl
  have hfcw : (w.Write c).1.firstContentWritten = true := by rw [hstep]; exact hmode
  have hnone : (w.Write c).1.buffer = none := by rw [hstep]
  refine ⟨hw, ?_, ?_, ?_, ?_⟩
  · simp [hw]
  · simp [responseWriterWrapper.recorded, hnone]
  · simp [responseWriterWrapper.wasSomethingRecorded, hnone]
  · intro later
    have hall := writeAll_passthrough later (w.Write c).1 hfcw hnone
    have hframe := (sink_writeAll_frame later (w.Write c).1.delegate).1
    refine ⟨?_, ?_, ?_, ?_⟩
    · rw [hall]; simp only []; rw [hframe, hw]
    · rw [hall]; exact hnone
    · rw [hall]; simp [responseWriterWrapper.recorded, hnone]
    · rw [hall]

/-- The overflow example of the test-suite: ceiling 5, `"foo"` buffered, then `"bar"`: the
real sink receives the single payload `"foobar"`, nothing stays recorded. -/
theorem Write_overflow_fallback_witness :
    overflowExample.recorded = foo ∧ overflowExample.delegate.writes = [] ∧
      (overflowExample.Write bar).1.delegate.writes = [foo ++ bar] ∧
      (overflowExample.Write bar).1.recorded = [] ∧
      (overflowExample.Write bar).1.wasSomethingRecorded = false ∧
      (writeAll (overflowExample.Write bar).1 [foo, bar]).1.delegate.writes =
        [foo ++ bar, foo, bar] := by
  have h := Write_overflow_fallback overflowExample foo bar rfl rfl (by decide)
  refine ⟨rfl, rfl, ?_, h.2.2.1, h.2.2.2.1, ?_⟩
  · simpa [overflowExample] using h.1
  · simpa [overflowExample] using (h.2.2.2.2 [foo, bar]).1

theorem writeAll_recording_from_init (cs : List Bytes) (w : responseWriterWrapper)
    (hinit : w.firstContentWritten = false) (hbuf : w.buffer = none)
    (hpred : w.beforeFirstWrite w.Header = true)
    (hfit : (cs.flatten.length : Int) ≤ w.maximumBufferSize) :
    (writeAll w cs).2 = cs.map (fun c => ((c.length : Int), (none : Option GoError))) ∧
      (writeAll w cs).1.delegate = w.delegate ∧
      (writeAll w cs).1.recorded = cs.flatten := by
  induction cs with
  | nil => exact ⟨rfl, rfl, by simp [writeAll, responseWriterWrapper.recorded, hbuf]⟩
  | cons c cs ih =>
    by_cases hc : c = []
    · subst hc
      have hfit2 : (cs.flatten.length : Int) ≤ w.maximumBufferSize := by simpa using hfit
      obtain ⟨h1, h2, h3⟩ := ih hfit2
      rw [writeAll_init_empty w cs hinit]
      exact ⟨by simp [h1], h2, by simpa using h3⟩
    · rw [writeAll_init_first w c cs hinit hc]
      have hb : (decided w).buffer = some [] := by simp [decided, hpred]
      have hfit2 : (([] : Bytes).length : Int) + ((c :: cs).flatten.length : Int) ≤
          (decided w).maximumBufferSize := by
        simpa [decided] using hfit
      rw [writeAll_recording_fits (c :: cs) (decided w) [] rfl hb hfit2]
      exact ⟨rfl, rfl, by simp [responseWriterWrapper.recorded]⟩

/-- C2. Recording without overflow: on a fresh interceptor whose should-record predicate
answers true, writing chunks `c1..cn` whose total length is at most `maximumBufferSize` (a
total equal to the ceiling fits; the cumulative lengths are then all within the ceiling)
returns `(len(ci), nil)` for every write, leaves the real sink exactly as it was, and
`recorded()` is `c1 ++ ... ++ cn`. -/
theorem Write_recording_without_overflow (d : ResponseWriter) (p : Header → Bool)
    (ceiling : Int) (cs : List Bytes) (hpred : p d.header = true)
    (hfit : (cs.flatten.length : Int) ≤ ceiling) :
    (writeAll (newResponseWriterWrapperFor d p ceiling) cs).2 =
        cs.map (fun c => ((c.length : Int), (none : Option GoError))) ∧
      (writeAll (newResponseWriterWrapperFor d p ceiling) cs).1.delegate = d ∧
      (writeAll (newResponseWriterWrapperFor d p ceiling) cs).1.recorded = cs.flatten :=
  writeAll_recording_from_init cs (newResponseWriterWrapperFor d p ceiling) rfl rfl hpred hfit

/-- The run of `Test_WriteWithRecording` with the ceiling set to the total, 6: the writes
`""`, `"foo"`, `"bar"` return 0, 3, 3 without error, the sink receives nothing, and
`"foobar"` is recorded. -/
theorem Write_recording_without_overflow_witness :
    (writeAll (newResponseWriterWrapperFor (newMockResponseWriter none) (fun _ => true) 6)
        [[], foo, bar]).2 = [(0, none), (3, none), (3, none)] ∧
      (writeAll (newResponseWriterWrapperFor (newMockResponseWriter none) (fun _ => true) 6)
        [[], foo, bar]).1.delegate.writes = [] ∧
      (writeAll (newResponseWriterWrapperFor (newMockResponseWriter none) (fun _ => true) 6)
        [[], foo, bar]).1.recorded = foo ++ bar := by
  have h := Write_recording_without_overflow (newMockResponseWriter none) (fun _ => true) 6
    [[], foo, bar] rfl (by decide)
  refine ⟨?_, ?_, ?_⟩
  · simpa [foo, bar] using h.1
  · rw [h.2.1]; rfl
  · simpa using h.2.2

theorem writeAll_passthrough_from_init (cs : List Bytes) (w : responseWriterWrapper)
    (hinit : w.firstContentWritten = false) (hbuf : w.buffer = none)
    (hpred : w.beforeFirstWrite w.Header = false) :
    (writeAll w cs).1.delegate = (w.delegate.writeAll (cs.dropWhile List.isEmpty)).1 ∧
      (writeAll w cs).2 =
        (cs.takeWhile List.isEmpty).map (fun _ => ((0 : Int), (none : Option GoError))) ++
          (w.delegate.writeAll (cs.dropWhile List.isEmpty)).2 ∧
      (writeAll w cs).1.buffer = none := by
  induction cs with
  | nil => exact ⟨rfl, rfl, hbuf⟩
  | cons c cs ih =>
    by_cases hc : c = []
    · subst hc
      obtain ⟨h1, h2, h3⟩ := ih
      rw [writeAll_init_empty w cs hinit]
      exact ⟨by simpa using h1, by simp [h2], h3⟩
    · rw [writeAll_init_first w c cs hinit hc]
      have hb : (decided w).buffer = none := by simp [decided, hpred]
      have hne : c.isEmpty = false := by
        cases c with
        | nil => exact absurd rfl hc
        | cons x xs => rfl
      rw [writeAll_passthrough (c :: cs) (decided w) rfl hb]
      simp [List.dropWhile, List.takeWhile, hne, decided, hpred]

theorem sink_writeAll_buffer (cs : List Bytes) (d : ResponseWriter)
    (hwhole : ∀ (earlier : List Bytes) (content : Bytes),
      (d.respond earlier content).1 = (content.length : Int)) :
    (d.writeAll cs).1.buffer = d.buffer ++ cs.flatten := by
  induction cs generalizing d with
  | nil => simp [ResponseWriter.writeAll]
  | cons c cs ih =>
    have hstep : (d.Write c).1.buffer = d.buffer ++ c := by
      simp [ResponseWriter.Write, hwhole]
    have hnext : ∀ (earlier : List Bytes) (content : Bytes),
        ((d.Write c).1.respond earlier content).1 = (content.length : Int) := hwhole
    simp only [ResponseWriter.writeAll]
    rw [ih (d.Write c).1 hnext, hstep]
    simp

theorem flatten_dropWhile_isEmpty (xs : List Bytes) :
    (xs.dropWhile List.isEmpty).flatten = xs.flatten := by
  induction xs with
  | nil => rfl
  | cons x xs ih =>
    cases x with
    | nil => simpa [List.dropWhile] using ih
    | cons y ys => simp [List.dropWhile]

/-- C3, as amended. Passthrough: on a fresh interceptor whose should-record predicate
answers false, for every sequence of chunks, the empty writes that precede the first
non-empty one return `(0, nil)` and do not reach the real sink; from the first non-empty
write on the real sink is handed exactly those chunks, unmodified and in order, and ends
exactly as if they had been written to it directly, every one of those writes returning the
sink's own answer; when the sink takes every write whole, its contents grow by the
concatenation of all the chunks; the buffer is absent after every prefix of the sequence,
`recorded()` is empty and `wasSomethingRecorded()` is false. -/
theorem Write_passthrough_transparent (d : ResponseWriter) (p : Header → Bool)
    (ceiling : Int) (cs : List Bytes) (hpred : p d.header = false) :
    (writeAll (newResponseWriterWrapperFor d p ceiling) cs).1.delegate =
        (d.writeAll (cs.dropWhile List.isEmpty)).1 ∧
      (writeAll (newResponseWriterWrapperFor d p ceiling) cs).1.delegate.writes =
        d.writes ++ cs.dropWhile List.isEmpty ∧
      (writeAll (newResponseWriterWrapperFor d p ceiling) cs).1.delegate.writes.flatten =
        d.writes.flatten ++ cs.flatten ∧
      (writeAll (newResponseWriterWrapperFor d p ceiling) cs).2 =
        (cs.takeWhile List.isEmpty).map (fun _ => ((0 : Int), (none : Option GoError))) ++
          (d.writeAll (cs.dropWhile List.isEmpty)).2 ∧
      ((∀ (earlier : List Bytes) (content : Bytes),
          (d.respond earlier content).1 = (content.length : Int)) →
        (writeAll (newResponseWriterWrapperFor d p ceiling) cs).1.delegate.buffer =
          d.buffer ++ cs.flatten) ∧
      (∀ k : Nat,
        (writeAll (newResponseWriterWrapperFor d p ceiling) (cs.take k)).1.buffer = none) ∧
      (writeAll (newResponseWriterWrapperFor d p ceiling) cs).1.recorded = [] ∧
      (writeAll (newResponseWriterWrapperFor d p ceiling) cs).1.wasSomethingRecorded = false := by
  have key := fun xs : List Bytes =>
    writeAll_passthrough_from_init xs (newResponseWriterWrapperFor d p ceiling) rfl rfl hpred
  obtain ⟨h1, h2, h3⟩ := key cs
  have hw : (writeAll (newResponseWriterWrapperFor d p ceiling) cs).1.delegate.writes =
      d.writes ++ cs.dropWhile List.isEmpty := by
    rw [h1]; exact (sink_writeAll_frame _ d).1
  refine ⟨h1, hw, ?_, h2, ?_, fun k => (key (cs.take k)).2.2, ?_, ?_⟩
  · simp only [hw, List.flatten_append, flatten_dropWhile_isEmpty]
  · intro hwhole
    rw [h1]
    exact (sink_writeAll_buffer _ d hwhole).trans (by rw [flatten_dropWhile_isEmpty])
  · simp [responseWriterWrapper.recorded, h3]
  · simp [responseWriterWrapper.wasSomethingRecorded, h3]

/-- The run of `Test_WriteWithoutRecording`: the writes `""`, `"foo"`, `"bar"` return 0, 3,
3 without error, the sink is handed `"foo"` and `"bar"` and holds `"foobar"`, the buffer is
absent. -/
theorem Write_passthrough_transparent_witness :
    (writeAll (newResponseWriterWrapperFor (newMockResponseWriter none) (fun _ => false) 5)
        [[], foo, bar]).2 = [(0, none), (3, none), (3, none)] ∧
      (writeAll (newResponseWriterWrapperFor (newMockResponseWriter none) (fun _ => false) 5)
        [[], foo, bar]).1.delegate.writes = [foo, bar] ∧
      (writeAll (newResponseWriterWrapperFor (newMockResponseWriter none) (fun _ => false) 5)
        [[], foo, bar]).1.delegate.buffer = foo ++ bar ∧
      (writeAll (newResponseWriterWrapperFor (newMockResponseWriter none) (fun _ => false) 5)
        [[], foo, bar]).1.buffer = none := by
  have h := Write_passthrough_transparent (newMockResponseWriter none) (fun _ => false) 5
    [[], foo, bar] rfl
  refine ⟨?_, ?_, ?_, ?_⟩
  · rw [h.2.2.2.1]; rfl
  · rw [h.2.1]; rfl
  · rw [h.2.2.2.2.1 (fun _ _ => rfl)]; rfl
  · simpa using h.2.2.2.2.2.1 3

/-- C3, the claim as stated fails.  Over the mock sink with its `error` set to `boom` and a
predicate that answers false, the chunks `""`, `"foo"` are written.  Handed these chunks
directly the sink is called twice and answers `(0, boom)` twice; through the interceptor the
write of `""` returns `(0, nil)`, which is not the sink's answer, and does not reach the sink,
which is handed `"foo"` alone; and the sink, refusing the write, holds nothing, not the
concatenation `"foo"`. -/
theorem Write_passthrough_transparent_counterexample :
    ((newMockResponseWriter (some (GoError.other "boom"))).writeAll [[], foo]).2 =
        [(0, some (GoError.other "boom")), (0, some (GoError.other "boom"))] ∧
      ((newMockResponseWriter (some (GoError.other "boom"))).writeAll [[], foo]).1.writes =
        [[], foo] ∧
      (writeAll (newResponseWriterWrapperFor
        (newMockResponseWriter (some (GoError.other "boom"))) (fun _ => false) 5)
        [[], foo]).2 = [(0, none), (0, some (GoError.other "boom"))] ∧
      (writeAll (newResponseWriterWrapperFor
        (newMockResponseWriter (some (GoError.other "boom"))) (fun _ => false) 5)
        [[], foo]).1.delegate.writes = [foo] ∧
      (writeAll (newResponseWriterWrapperFor
        (newMockResponseWriter (some (GoError.other "boom"))) (fun _ => false) 5)
        [[], foo]).1.delegate.buffer = [] ∧
      (writeAll (newResponseWriterWrapperFor
        (newMockResponseWriter (some (GoError.other "boom"))) (fun _ => false) 5)
        [[], foo]).1.firstContentWritten = true := by
  exact ⟨by decide, by decide, by decide, by decide, by decide, by decide⟩

theorem writeAll_decided_frame (cs : List Bytes) (w : responseWriterWrapper)
    (h : w.firstContentWritten = true) :
    (writeAll w cs).1.firstContentWritten = true ∧
      (writeAll w cs).1.beforeFirstWriteCalls = w.beforeFirstWriteCalls := by
  induction cs generalizing w with
  | nil => exact ⟨h, rfl⟩
  | cons c cs ih =>
    obtain ⟨h1, h2, _⟩ := Write_decided_frame w c h
    obtain ⟨h3, h4⟩ := ih (w.Write c).1 h1
    exact ⟨h3, h4.trans h2⟩

theorem writeAll_calls_from_init (cs : List Bytes) (w : responseWriterWrapper)
    (hinit : w.firstContentWritten = false) :
    (writeAll w cs).1.beforeFirstWriteCalls =
        w.beforeFirstWriteCalls + (if cs.all List.isEmpty then 0 else 1) ∧
      (writeAll w cs).1.firstContentWritten = !cs.all List.isEmpty := by
  induction cs with
  | nil => simp [writeAll, hinit]
  | cons c cs ih =>
    by_cases hc : c = []
    · subst hc
      rw [writeAll_init_empty w cs hinit]
      simpa using ih
    · rw [writeAll_init_first w c cs hinit hc]
      have hne : c.isEmpty = false := by
        cases c with
        | nil => exact absurd rfl hc
        | cons x xs => rfl
      obtain ⟨h1, h2⟩ := writeAll_decided_frame (c :: cs) (decided w) rfl
      rw [h1, h2]
      simp [hne, decided]

/-- C4. The recording decision is taken once.  Over any sequence of writes on a fresh
interceptor the should-record predicate is invoked once when some chunk is non-empty and not
at all when every chunk is empty, and `firstContentWritten` is set exactly in the first case.
An empty write before the decision returns `(0, nil)` and changes nothing.  A non-empty write
before the decision is the one that invokes the predicate and sets `firstContentWritten`,
and it records exactly when the predicate answers true.  After the decision no write invokes
the predicate: passthrough stays passthrough, and recording stays recording unless the
write overflows the ceiling. -/
theorem recording_decision_taken_once :
    (∀ (d : ResponseWriter) (p : Header → Bool) (ceiling : Int) (cs : List Bytes),
      (writeAll (newResponseWriterWrapperFor d p ceiling) cs).1.beforeFirstWriteCalls =
          (if cs.all List.isEmpty then 0 else 1) ∧
        (writeAll (newResponseWriterWrapperFor d p ceiling) cs).1.firstContentWritten =
          !cs.all List.isEmpty) ∧
    (∀ w : responseWriterWrapper, w.firstContentWritten = false →
      w.Write [] = (w, (0, none))) ∧
    (∀ (w : responseWriterWrapper) (c : Bytes), w.firstContentWritten = false → c ≠ [] →
      (w.Write c).1.firstContentWritten = true ∧
        (w.Write c).1.beforeFirstWriteCalls = w.beforeFirstWriteCalls + 1 ∧
        (w.Write c).1.delegate.header = w.delegate.header ∧
        (w.beforeFirstWrite w.Header = false → (w.Write c).1.buffer = none) ∧
        (w.beforeFirstWrite w.Header = true → (c.length : Int) ≤ w.maximumBufferSize →
          (w.Write c).1.buffer = some c)) ∧
    (∀ (w : responseWriterWrapper) (c : Bytes), w.firstContentWritten = true →
      (w.Write c).1.firstContentWritten = true ∧
        (w.Write c).1.beforeFirstWriteCalls = w.beforeFirstWriteCalls ∧
        (w.buffer = none → (w.Write c).1.buffer = none) ∧
        (∀ b : Bytes, w.buffer = some b →
          (b.length : Int) + (c.length : Int) ≤ w.maximumBufferSize →
          (w.Write c).1.buffer = some (b ++ c))) := by
  refine ⟨?_, Write_init_empty, ?_, ?_⟩
  · intro d p ceiling cs
    have h := writeAll_calls_from_init cs (newResponseWriterWrapperFor d p ceiling) rfl
    refine ⟨?_, h.2⟩
    rw [h.1]
    simp [newResponseWriterWrapperFor]
  · intro w c hinit hc
    rw [Write_first w c hinit hc]
    obtain ⟨h1, h2, h3⟩ := Write_decided_frame (decided w) c rfl
    refine ⟨h1, h2, ?_, ?_, ?_⟩
    · cases hp : w.beforeFirstWrite w.Header with
      | false =>
        have hb : (decided w).buffer = none := by simp [decided, hp]
        rw [Write_passthrough (decided w) c rfl hb]
        rfl
      | true =>
        have hb : (decided w).buffer = some [] := by simp [decided, hp]
        by_cases hover : (([] : Bytes).length : Int) + (c.length : Int) >
            (decided w).maximumBufferSize
        · rw [Write_recording_overflow (decided w) [] c rfl hb hover]
          rfl
        · rw [Write_recording_fits (decided w) [] c rfl hb (not_lt.mp hover)]
          rfl
    · intro hp
      exact h3 (by simp [decided, hp])
    · intro hp hfit
      have hb : (decided w).buffer = some [] := by simp [decided, hp]
      have hfit2 : (([] : Bytes).length : Int) + (c.length : Int) ≤
          (decided w).maximumBufferSize := by
        simpa [decided] using hfit
      rw [Write_recording_fits (decided w) [] c rfl hb hfit2]
      rfl
  · intro w c h
    obtain ⟨h1, h2, h3⟩ := Write_decided_frame w c h
    refine ⟨h1, h2, h3, ?_⟩
    intro b hb hfit
    rw [Write_recording_fits w b c h hb hfit]

/-- C5. The function `bodyAllowedForStatus` is the HTTP no-body rule: it is false exactly for
the codes 100 to 199, 204 and 304, and true for every other code, among them 200, 208, 404,
500 and 503. -/
theorem bodyAllowedForStatus_no_body_rule :
    (∀ s : Int, bodyAllowedForStatus s = false ↔
      ((100 ≤ s ∧ s ≤ 199) ∨ s = 204 ∨ s = 304)) ∧
    (∀ s : Int, bodyAllowedForStatus s = true ↔
      ¬ ((100 ≤ s ∧ s ≤ 199) ∨ s = 204 ∨ s = 304)) ∧
    bodyAllowedForStatus 200 = true ∧ bodyAllowedForStatus 208 = true ∧
    bodyAllowedForStatus 404 = true ∧ bodyAllowedForStatus 500 = true ∧
    bodyAllowedForStatus 503 = true := by
  have hfalse : ∀ s : Int, bodyAllowedForStatus s = false ↔
      ((100 ≤ s ∧ s ≤ 199) ∨ s = 204 ∨ s = 304) := by
    intro s
    unfold bodyAllowedForStatus
    by_cases h1 : 100 ≤ s ∧ s ≤ 199
    · simp [h1]
    · by_cases h2 : s = 204
      · simp [h2]
      · by_cases h3 : s = 304
        · simp [h3]
        · simp [h1, h2, h3]
  refine ⟨hfalse, ?_, by decide, by decide, by decide, by decide, by decide⟩
  intro s
  rw [← hfalse s]
  cases bodyAllowedForStatus s <;> simp

theorem writeHeaderAll_snoc (w : responseWriterWrapper) (statuses : List Int) (s : Int) :
    writeHeaderAll w (statuses ++ [s]) = w.WriteHeader s := by
  induction statuses generalizing w with
  | nil => rfl
  | cons t ts ih =>
    have h := ih (w.WriteHeader t)
    simp only [writeHeaderAll, List.cons_append, List.foldl_cons] at h ⊢
    rw [h]
    rfl

/-- C6. The method `WriteHeader` is deferred and the last call wins: after the calls
`WriteHeader(s1)`, ..., `WriteHeader(sn)` the interceptor is the one a single
`WriteHeader(sn)` produces, so `statusSetAtDelegate = sn` and
`bodyAllowed = bodyAllowedForStatus(sn)` whatever `s1..s(n-1)` were; the real sink is
untouched: its status is what it was and no `WriteHeader` call reached it. -/
theorem WriteHeader_last_call_wins (w : responseWriterWrapper) (statuses : List Int)
    (s : Int) :
    writeHeaderAll w (statuses ++ [s]) = w.WriteHeader s ∧
      (writeHeaderAll w (statuses ++ [s])).statusSetAtDelegate = s ∧
      (writeHeaderAll w (statuses ++ [s])).bodyAllowed = bodyAllowedForStatus s ∧
      (writeHeaderAll w (statuses ++ [s])).delegate = w.delegate ∧
      (writeHeaderAll w (statuses ++ [s])).delegate.status = w.delegate.status ∧
      (writeHeaderAll w (statuses ++ [s])).delegate.headerCommits = w.delegate.headerCommits ∧
      (writeHeaderAll w (statuses ++ [s])).buffer = w.buffer ∧
      (writeHeaderAll w (statuses ++ [s])).firstContentWritten = w.firstContentWritten := by
  rw [writeHeaderAll_snoc]
  exact ⟨rfl, rfl, rfl, rfl, rfl, rfl, rfl, rfl⟩

/-- The run of `Test_WriteHeader`: after `WriteHeader(200)` and `WriteHeader(204)` the status
kept is 204, a body is not allowed, and the mock sink still has status 0. -/
theorem WriteHeader_last_call_wins_witness :
    (writeHeaderAll (newResponseWriterWrapperFor (newMockResponseWriter none) (fun _ => false) 5)
        ([200] ++ [204])).statusSetAtDelegate = 204 ∧
      (writeHeaderAll (newResponseWriterWrapperFor (newMockResponseWriter none) (fun _ => false) 5)
        ([200] ++ [204])).bodyAllowed = false ∧
      (writeHeaderAll (newResponseWriterWrapperFor (newMockResponseWriter none) (fun _ => false) 5)
        ([200] ++ [204])).delegate.status = 0 ∧
      (writeHeaderAll (newResponseWriterWrapperFor (newMockResponseWriter none) (fun _ => false) 5)
        ([200] ++ [204])).delegate.headerCommits = [] := by
  have h := WriteHeader_last_call_wins
    (newResponseWriterWrapperFor (newMockResponseWriter none) (fun _ => false) 5) [200] 204
  exact ⟨h.2.1, h.2.2.1.trans (by decide), h.2.2.2.2.1, h.2.2.2.2.2.1⟩

/-! ## The claims on `filter.go` -/

theorem applyRules_cons (request : Request) (r : rule) (rest : List rule)
    (start : Header × Bytes) :
    applyRules request (r :: rest) start =
      applyRules request rest
        (if r.matches request start.1 then r.execute request start.1 start.2 else start) := by
  simp [applyRules]

theorem bodyIsRetrievedLoop_skip (m : wrapperMethods) (request : Request)
    (wrapperd : responseWriterWrapper) (r : rule) (rest : List rule) (s : retrieval)
    (hm : r.matches request s.header = false) :
    bodyIsRetrievedLoop m request wrapperd (r :: rest) s =
      bodyIsRetrievedLoop m request wrapperd rest s := by
  simp [bodyIsRetrievedLoop, hm]

theorem bodyIsRetrievedLoop_next (m : wrapperMethods) (request : Request)
    (wrapperd : responseWriterWrapper) (r : rule) (rest : List rule) (s : retrieval)
    (hm : r.matches request s.header = true) (h : s.bodyRetrieved = true) :
    bodyIsRetrievedLoop m request wrapperd (r :: rest) s =
      bodyIsRetrievedLoop m request wrapperd rest
        { header := (r.execute request s.header s.body).1
          body := (r.execute request s.header s.body).2
          bodyRetrieved := true
          decodeCalls := s.decodeCalls } := by
  simp [bodyIsRetrievedLoop, hm, h]

theorem bodyIsRetrievedLoop_first (m : wrapperMethods) (request : Request)
    (wrapperd : responseWriterWrapper) (r : rule) (rest : List rule) (s : retrieval)
    (hm : r.matches request s.header = true) (h : s.bodyRetrieved = false) :
    bodyIsRetrievedLoop m request wrapperd (r :: rest) s =
      bodyIsRetrievedLoop m request wrapperd rest
        { header := (r.execute request s.header
            (m.RecordedAndDecodeIfRequired (wrapperd.withHeader s.header))).1
          body := (r.execute request s.header
            (m.RecordedAndDecodeIfRequired (wrapperd.withHeader s.header))).2
          bodyRetrieved := true
          decodeCalls := s.decodeCalls + 1 } := by
  simp [bodyIsRetrievedLoop, hm, h]

theorem bodyIsRetrievedLoop_retrieved (m : wrapperMethods) (request : Request)
    (wrapperd : responseWriterWrapper) (rules : List rule) (s : retrieval)
    (h : s.bodyRetrieved = true) :
    bodyIsRetrievedLoop m request wrapperd rules s =
      { header := (applyRules request rules (s.header, s.body)).1
        body := (applyRules request rules (s.header, s.body)).2
        bodyRetrieved := true
        decodeCalls := s.decodeCalls } := by
  induction rules generalizing s with
  | nil =>
    cases s
    simp_all [bodyIsRetrievedLoop, applyRules]
  | cons r rest ih =>
    rw [applyRules_cons]
    cases hm : r.matches request s.header with
    | true =>
      rw [bodyIsRetrievedLoop_next m request wrapperd r rest s hm h, ih _ rfl]
      simp
    | false =>
      rw [bodyIsRetrievedLoop_skip m request wrapperd r rest s hm, ih s h]
      simp

theorem bodyIsRetrievedLoop_fresh (m : wrapperMethods) (request : Request)
    (wrapperd : responseWriterWrapper) (rules : List rule) (s : retrieval)
    (h : s.bodyRetrieved = false) :
    bodyIsRetrievedLoop m request wrapperd rules s =
      if rules.any (fun r => r.matches request s.header) then
        { header := (applyRules request rules
            (s.header, m.RecordedAndDecodeIfRequired (wrapperd.withHeader s.header))).1
          body := (applyRules request rules
            (s.header, m.RecordedAndDecodeIfRequired (wrapperd.withHeader s.header))).2
          bodyRetrieved := true
          decodeCalls := s.decodeCalls + 1 }
      else s := by
  induction rules with
  | nil => simp [bodyIsRetrievedLoop]
  | cons r rest ih =>
    rw [applyRules_cons]
    cases hm : r.matches request s.header with
    | true =>
      rw [bodyIsRetrievedLoop_first m request wrapperd r rest s hm h,
        bodyIsRetrievedLoop_retrieved m request wrapperd rest _ rfl]
      simp [hm]
    | false =>
      rw [bodyIsRetrievedLoop_skip m request wrapperd r rest s hm, ih]
      simp [hm]

theorem applyRules_header_kept (request : Request) (rules : List rule) (h : Header)
    (body : Bytes)
    (hkeep : ∀ r ∈ rules, ∀ (h0 : Header) (b : Bytes), (r.execute request h0 b).1 = h0) :
    applyRules request rules (h, body) =
      (h, (rules.filter (fun r => r.matches request h)).foldl
        (fun b r => (r.execute request h b).2) body) := by
  induction rules generalizing body with
  | nil => rfl
  | cons r rest ih =>
    have hrest : ∀ r0 ∈ rest, ∀ (h0 : Header) (b : Bytes), (r0.execute request h0 b).1 = h0 :=
      fun r0 hr0 => hkeep r0 (List.mem_cons_of_mem r hr0)
    rw [applyRules_cons]
    by_cases hm : r.matches request h = true
    · have hex : r.execute request h body = (h, (r.execute request h body).2) :=
        Prod.ext (hkeep r (List.mem_cons_self r rest) h body) rfl
      simp only [hm, if_true, List.filter_cons, List.foldl_cons]
      rw [hex, ih _ hrest]
    · simp only [hm, if_false, List.filter_cons]
      exact ih body hrest

/-- C7. Rule chaining in the body-retrieval closure of `filterHandler.ServeHTTP`: the closure
reports `captured = true` exactly when at least one rule matches; it calls
`RecordedAndDecodeIfRequired` once when some rule matches and never otherwise; when some rule
matches, the header set and the body it returns are the rule chain run from the recorded
(decoded) body: every matching rule executes in registration order on the output of the
previous one and a rule with no match contributes nothing; when the rules leave the header
set alone this is the left fold of `execute` over the matching rules.  When no rule matches
the interceptor is unchanged and the body is nil. -/
theorem bodyIsRetrieved_rule_chaining (self : filterHandler) (m : wrapperMethods)
    (request : Request) (wrapper : responseWriterWrapper) :
    (self.bodyIsRetrieved m request wrapper).2.1 =
        self.rules.any (fun r => r.matches request wrapper.Header) ∧
      ((self.bodyIsRetrieved m request wrapper).2.1 = true ↔
        ∃ r ∈ self.rules, r.matches request wrapper.Header = true) ∧
      (self.retrieve m request wrapper).decodeCalls =
        (if self.rules.any (fun r => r.matches request wrapper.Header) then 1 else 0) ∧
      (self.rules.any (fun r => r.matches request wrapper.Header) = true →
        ((self.bodyIsRetrieved m request wrapper).1.Header,
            (self.bodyIsRetrieved m request wrapper).2.2) =
          applyRules request self.rules
            (wrapper.Header, m.RecordedAndDecodeIfRequired wrapper)) ∧
      (self.rules.any (fun r => r.matches request wrapper.Header) = false →
        self.bodyIsRetrieved m request wrapper = (wrapper, (false, []))) ∧
      ((∀ r ∈ self.rules, ∀ (h0 : Header) (b : Bytes), (r.execute request h0 b).1 = h0) →
        self.rules.any (fun r => r.matches request wrapper.Header) = true →
        (self.bodyIsRetrieved m request wrapper).2.2 =
          (self.rules.filter (fun r => r.matches request wrapper.Header)).foldl
            (fun b r => (r.execute request wrapper.Header b).2)
            (m.RecordedAndDecodeIfRequired wrapper)) := by
  have hsame : wrapper.withHeader wrapper.Header = wrapper := rfl
  have hloop := bodyIsRetrievedLoop_fresh m request wrapper self.rules
    { header := wrapper.Header, body := [], bodyRetrieved := false, decodeCalls := 0 } rfl
  simp only [hsame] at hloop
  have hcap : (self.bodyIsRetrieved m request wrapper).2.1 =
      self.rules.any (fun r => r.matches request wrapper.Header) := by
    simp only [filterHandler.bodyIsRetrieved, filterHandler.retrieve, hloop]
    cases self.rules.any (fun r => r.matches request wrapper.Header) <;> simp
  have hchain : self.rules.any (fun r => r.matches request wrapper.Header) = true →
      ((self.bodyIsRetrieved m request wrapper).1.Header,
          (self.bodyIsRetrieved m request wrapper).2.2) =
        applyRules request self.rules
          (wrapper.Header, m.RecordedAndDecodeIfRequired wrapper) := by
    intro hany
    simp only [filterHandler.bodyIsRetrieved, filterHandler.retrieve, hloop, hany, if_true]
    rfl
  refine ⟨hcap, ?_, ?_, hchain, ?_, ?_⟩
  · rw [hcap, List.any_eq_true]
  · simp only [filterHandler.retrieve, hloop]
    cases self.rules.any (fun r => r.matches request wrapper.Header) <;> simp
  · intro hany
    simp only [filterHandler.bodyIsRetrieved, filterHandler.retrieve, hloop, hany]
    rfl
  · intro hkeep hany
    have h := congrArg Prod.snd (hchain hany)
    rw [applyRules_header_kept request self.rules wrapper.Header _ hkeep] at h
    exact h

/-- The chaining example of the spec: `"hello"` through rule A (upper case), a rule that does
not match, and rule B (append `"!"`) gives captured = true and the body `"HELLO!"`, with one
call of `RecordedAndDecodeIfRequired`; with the non-matching rule alone nothing is
captured. -/
theorem bodyIsRetrieved_rule_chaining_witness :
    (exampleHandler [ruleUpper, ruleNever, ruleBang] [hello] 200 none).bodyIsRetrieved
        plainMethods plainRequest helloRecorded = (helloRecorded, (true, helloShouted)) ∧
      ((exampleHandler [ruleUpper, ruleNever, ruleBang] [hello] 200 none).retrieve
        plainMethods plainRequest helloRecorded).decodeCalls = 1 ∧
      (exampleHandler [ruleNever] [hello] 200 none).bodyIsRetrieved
        plainMethods plainRequest helloRecorded = (helloRecorded, (false, [])) ∧
      ((exampleHandler [ruleNever] [hello] 200 none).retrieve
        plainMethods plainRequest helloRecorded).decodeCalls = 0 := by
  have h := bodyIsRetrieved_rule_chaining
    (exampleHandler [ruleUpper, ruleNever, ruleBang] [hello] 200 none) plainMethods
    plainRequest helloRecorded
  have h0 := bodyIsRetrieved_rule_chaining
    (exampleHandler [ruleNever] [hello] 200 none) plainMethods plainRequest helloRecorded
  refine ⟨?_, ?_, h0.2.2.2.2.1 rfl, ?_⟩
  · rfl
  · rw [h.2.2.1]; rfl
  · rw [h0.2.2.1]; rfl

theorem String_length_pos_iff (t : String) : t.length > 0 ↔ t ≠ "" := by
  cases t with
  | mk data =>
    cases data with
    | nil => simp [String.length]
    | cons x xs =>
      constructor
      · intro _ h
        exact absurd (congrArg String.data h) (List.cons_ne_nil x xs)
      · intro _
        simp [String.length]

theorem Header_Get_Set (h : Header) (key value : String) :
    Header.Get (Header.Set h key value) key = value := by
  simp [Header.Get, Header.Set, List.lookup]

theorem Header_Get_of_not_Has (h : Header) (key : String) (hno : Header.Has h key = false) :
    Header.Get h key = "" := by
  unfold Header.Has at hno
  unfold Header.Get
  cases hl : h.lookup key with
  | none => rfl
  | some v => simp [hl] at hno

theorem withNewContentLength_cases (w : responseWriterWrapper) (body : Bytes) :
    (w.Header.Get "Content-Length" ≠ "" →
      withNewContentLength w body =
        w.withHeader (w.Header.Set "Content-Length" (Itoa (body.length : Int)))) ∧
    (w.Header.Get "Content-Length" = "" → withNewContentLength w body = w) := by
  constructor
  · intro hne
    have hpos := (String_length_pos_iff _).mpr hne
    simp [withNewContentLength, hpos]
  · intro he
    simp [withNewContentLength, he]

/-- The run of `RewriteResponse` when the handler's error is nil or soft, interception is
required, the status allows a body and the closure reports a captured body. -/
theorem RewriteResponse_captured (m : wrapperMethods) (writer : ResponseWriter)
    (request : Request) (p : Header → Bool)
    (cb : responseWriterWrapper → responseWriterWrapper × (Bool × Bytes)) (ceiling : Int)
    (next : Handler) (w1 w2 : responseWriterWrapper) (result : Int) (err : Option GoError)
    (body : Bytes)
    (hserved : served writer request p ceiling next = (w1, (result, err)))
    (hskip : w1.skipped = false)
    (herr : err = none ∨ ∃ t, err = some (GoError.LogError t))
    (hreq : m.isInterceptingRequired w1 = true) (hallowed : w1.isBodyAllowed = true)
    (hcb : cb w1 = (w2, (true, body))) :
    RewriteResponse m writer request p cb ceiling next =
      { wrapper :=
          (m.writeToDelegateAndEncodeIfRequired (withNewContentLength w2 body) body result).1
        steps := [Step.bodyIsRetrieved] ++
          (if w2.Header.Get "Content-Length" = "" then []
            else [Step.setContentLength (Itoa (body.length : Int))]) ++
          [Step.writeToDelegateAndEncodeIfRequired body result]
        result := result
        err :=
          match (m.writeToDelegateAndEncodeIfRequired
              (withNewContentLength w2 body) body result).2.2 with
          | some e => some e
          | none =>
            if (m.writeToDelegateAndEncodeIfRequired
                (withNewContentLength w2 body) body result).2.1 < (body.length : Int)
            then some GoError.ErrShortWrite else err } := by
  unfold served at hserved
  by_cases hlen : w2.Header.Get "Content-Length" = ""
  · rw [(withNewContentLength_cases w2 body).2 hlen]
    rcases herr with h | ⟨t, h⟩ <;> subst h <;>
      cases hout : (m.writeToDelegateAndEncodeIfRequired w2 body result).2.2 <;>
      simp [RewriteResponse, hserved, hskip, hreq, hallowed, hcb, hlen, hout, asLogError] <;>
      split_ifs <;> rfl
  · have hpos := (String_length_pos_iff _).mpr hlen
    rw [(withNewContentLength_cases w2 body).1 hlen]
    rcases herr with h | ⟨t, h⟩ <;> subst h <;>
      cases hout : (m.writeToDelegateAndEncodeIfRequired
        (w2.withHeader (w2.Header.Set "Content-Length" (Itoa (body.length : Int))))
        body result).2.2 <;>
      simp [RewriteResponse, hserved, hskip, hreq, hallowed, hcb, hlen, hpos, hout,
        asLogError] <;>
      split_ifs <;> rfl

/-- C8, as amended. Content-Length rewrite in `RewriteResponse`: whenever a body was captured,
the `Content-Length` value is read after the body-retrieval closure has returned (so after the
rules ran); when that value is not empty the header is set, before the body is handed to
`writeToDelegateAndEncodeIfRequired`, to the decimal representation of the byte length of the
transformed body; when it is empty (the header is absent, or present with an empty value) the
header set stays as the closure left it, so a response without the header gets none. -/
theorem RewriteResponse_content_length (m : wrapperMethods) (writer : ResponseWriter)
    (request : Request) (p : Header → Bool)
    (cb : responseWriterWrapper → responseWriterWrapper × (Bool × Bytes)) (ceiling : Int)
    (next : Handler) (w1 w2 : responseWriterWrapper) (result : Int) (err : Option GoError)
    (body : Bytes)
    (hserved : served writer request p ceiling next = (w1, (result, err)))
    (hskip : w1.skipped = false)
    (herr : err = none ∨ ∃ t, err = some (GoError.LogError t))
    (hreq : m.isInterceptingRequired w1 = true) (hallowed : w1.isBodyAllowed = true)
    (hcb : cb w1 = (w2, (true, body))) :
    (RewriteResponse m writer request p cb ceiling next).wrapper =
        (m.writeToDelegateAndEncodeIfRequired (withNewContentLength w2 body) body result).1 ∧
      Itoa (body.length : Int) = Nat.repr body.length ∧
      (w2.Header.Get "Content-Length" ≠ "" →
        (withNewContentLength w2 body).Header =
            w2.Header.Set "Content-Length" (Itoa (body.length : Int)) ∧
          (withNewContentLength w2 body).Header.Get "Content-Length" =
            Itoa (body.length : Int) ∧
          (RewriteResponse m writer request p cb ceiling next).steps =
            [Step.bodyIsRetrieved, Step.setContentLength (Itoa (body.length : Int)),
              Step.writeToDelegateAndEncodeIfRequired body result]) ∧
      (w2.Header.Get "Content-Length" = "" →
        withNewContentLength w2 body = w2 ∧
          (RewriteResponse m writer request p cb ceiling next).steps =
            [Step.bodyIsRetrieved, Step.writeToDelegateAndEncodeIfRequired body result]) ∧
      (Header.Has w2.Header "Content-Length" = false →
        withNewContentLength w2 body = w2 ∧
          Header.Has (withNewContentLength w2 body).Header "Content-Length" = false) := by
  have hrun := RewriteResponse_captured m writer request p cb ceiling next w1 w2 result err
    body hserved hskip herr hreq hallowed hcb
  refine ⟨by rw [hrun], rfl, ?_, ?_, ?_⟩
  · intro hne
    have hw := (withNewContentLength_cases w2 body).1 hne
    refine ⟨by rw [hw]; rfl, ?_, by rw [hrun]; simp [hne]⟩
    rw [hw]
    exact Header_Get_Set _ _ _
  · intro he
    exact ⟨(withNewContentLength_cases w2 body).2 he, by rw [hrun]; simp [he]⟩
  · intro hno
    have hw := (withNewContentLength_cases w2 body).2 (Header_Get_of_not_Has _ _ hno)
    exact ⟨hw, by rw [hw]; exact hno⟩

/-- The chaining example of the spec run through `RewriteResponse`: the handler leaves
`Content-Length: 5` and writes `"hello"`; the rules give `"HELLO!"`; the header becomes `6`
before the body is written, and the sink receives `"HELLO!"`. -/
theorem RewriteResponse_content_length_witness :
    (exampleRun (sinkWithLength ["5"]) [ruleUpper, ruleNever, ruleBang] [hello] 200 none).steps =
        [Step.bodyIsRetrieved, Step.setContentLength "6",
          Step.writeToDelegateAndEncodeIfRequired helloShouted 200] ∧
      (exampleRun (sinkWithLength ["5"]) [ruleUpper, ruleNever, ruleBang] [hello] 200
        none).wrapper.Header.Get "Content-Length" = "6" ∧
      (exampleRun (sinkWithLength ["5"]) [ruleUpper, ruleNever, ruleBang] [hello] 200
        none).wrapper.delegate.writes = [helloShouted] := by
  have h := RewriteResponse_content_length plainMethods (sinkWithLength ["5"]) plainRequest
    ((exampleHandler [ruleUpper, ruleNever, ruleBang] [hello] 200 none).beforeFirstWrite
      plainRequest)
    (exampleClosure [ruleUpper, ruleNever, ruleBang] [hello] 200 none) 100
    (scriptedHandler [hello] 200 none)
    (exampleServed (sinkWithLength ["5"]) [ruleUpper, ruleNever, ruleBang] [hello] 200 none).1
    ((exampleClosure [ruleUpper, ruleNever, ruleBang] [hello] 200 none)
      (exampleServed (sinkWithLength ["5"]) [ruleUpper, ruleNever, ruleBang] [hello] 200
        none).1).1
    200 none helloShouted rfl rfl (Or.inl rfl) rfl rfl rfl
  exact ⟨(h.2.2.1 (by decide)).2.2,
    (congrArg (fun w => Header.Get w.Header "Content-Length") h.1).trans (by decide),
    (congrArg (fun w => w.delegate.writes) h.1).trans (by decide)⟩

/-- C8, the claim as stated fails.  (a) The handler leaves `Content-Length: 5` and writes
`"hello"`; a rule removes the header while the body becomes `"HELLO!"`: the header was present
before the transformation, the body is captured, transformed and written, and no
`Content-Length` is set.  (b) The handler leaves a `Content-Length` header whose value is
empty: the header is present, the body is captured, transformed and written, and the header
is not rewritten to `6`. -/
theorem RewriteResponse_content_length_counterexample :
    (Header.Has (exampleServed (sinkWithLength ["5"]) [ruleUpper, ruleDropLength, ruleBang]
        [hello] 200 none).1.Header "Content-Length" = true ∧
      (exampleRun (sinkWithLength ["5"]) [ruleUpper, ruleDropLength, ruleBang] [hello] 200
        none).steps =
        [Step.bodyIsRetrieved, Step.writeToDelegateAndEncodeIfRequired helloShouted 200] ∧
      (exampleRun (sinkWithLength ["5"]) [ruleUpper, ruleDropLength, ruleBang] [hello] 200
        none).wrapper.delegate.writes = [helloShouted] ∧
      Header.Has (exampleRun (sinkWithLength ["5"]) [ruleUpper, ruleDropLength, ruleBang]
        [hello] 200 none).wrapper.Header "Content-Length" = false) ∧
    (Header.Has (exampleServed (sinkWithLength [""]) [ruleUpper, ruleBang]
        [hello] 200 none).1.Header "Content-Length" = true ∧
      (exampleRun (sinkWithLength [""]) [ruleUpper, ruleBang] [hello] 200 none).steps =
        [Step.bodyIsRetrieved, Step.writeToDelegateAndEncodeIfRequired helloShouted 200] ∧
      (exampleRun (sinkWithLength [""]) [ruleUpper, ruleBang] [hello] 200
        none).wrapper.delegate.writes = [helloShouted] ∧
      (exampleRun (sinkWithLength [""]) [ruleUpper, ruleBang] [hello] 200
        none).wrapper.Header.Get "Content-Length" ≠ Itoa 6) := by
  refine ⟨⟨by decide, by decide, by decide, by decide⟩, by decide, by decide, by decide,
    by decide⟩

/-- C9. Short write on the transformed-body path of `RewriteResponse`: when a body was
captured and the write of the transformed body reports `n` bytes and no error, the result is
`(handler status, io.ErrShortWrite)` if `n < len(body)`, which is neither success nor the
deferred soft error, and `(handler status, deferred soft error or nil)` if
`n >= len(body)`. -/
theorem RewriteResponse_short_write (m : wrapperMethods) (writer : ResponseWriter)
    (request : Request) (p : Header → Bool)
    (cb : responseWriterWrapper → responseWriterWrapper × (Bool × Bytes)) (ceiling : Int)
    (next : Handler) (w1 w2 w3 : responseWriterWrapper) (result n : Int)
    (err : Option GoError) (body : Bytes)
    (hserved : served writer request p ceiling next = (w1, (result, err)))
    (hskip : w1.skipped = false)
    (herr : err = none ∨ ∃ t, err = some (GoError.LogError t))
    (hreq : m.isInterceptingRequired w1 = true) (hallowed : w1.isBodyAllowed = true)
    (hcb : cb w1 = (w2, (true, body)))
    (hwrite : m.writeToDelegateAndEncodeIfRequired (withNewContentLength w2 body) body result =
      (w3, (n, none))) :
    (RewriteResponse m writer request p cb ceiling next).result = result ∧
      (n < (body.length : Int) →
        (RewriteResponse m writer request p cb ceiling next).err =
            some GoError.ErrShortWrite ∧
          (RewriteResponse m writer request p cb ceiling next).err ≠ none ∧
          (RewriteResponse m writer request p cb ceiling next).err ≠ err) ∧
      ((body.length : Int) ≤ n →
        (RewriteResponse m writer request p cb ceiling next).err = err) := by
  have hrun := RewriteResponse_captured m writer request p cb ceiling next w1 w2 result err
    body hserved hskip herr hreq hallowed hcb
  rw [hrun, hwrite]
  refine ⟨rfl, ?_, ?_⟩
  · intro hlt
    have hne : some GoError.ErrShortWrite ≠ err := by
      rcases herr with h | ⟨t, h⟩ <;> subst h <;> simp
    simp [hlt, hne]
  · intro hge
    simp [not_lt.mpr hge]

/-- The short-write example of the spec: the transformed body has 10 bytes and the real sink
reports 7 written without error, so `io.ErrShortWrite` is returned with the handler's
status, also when the handler returned a soft error; a sink that reports all 10 bytes gives
the soft error back. -/
theorem RewriteResponse_short_write_witness :
    (exampleRun (shortSink 7) [ruleUpper] [hello ++ hello] 200
        (some (GoError.LogError "stderr"))).err = some GoError.ErrShortWrite ∧
      (exampleRun (shortSink 7) [ruleUpper] [hello ++ hello] 200
        (some (GoError.LogError "stderr"))).result = 200 ∧
      (exampleRun (shortSink 10) [ruleUpper] [hello ++ hello] 200
        (some (GoError.LogError "stderr"))).err = some (GoError.LogError "stderr") := by
  have h7 := RewriteResponse_short_write plainMethods (shortSink 7) plainRequest
    ((exampleHandler [ruleUpper] [hello ++ hello] 200
      (some (GoError.LogError "stderr"))).beforeFirstWrite plainRequest)
    (exampleClosure [ruleUpper] [hello ++ hello] 200 (some (GoError.LogError "stderr"))) 100
    (scriptedHandler [hello ++ hello] 200 (some (GoError.LogError "stderr")))
    (exampleServed (shortSink 7) [ruleUpper] [hello ++ hello] 200
      (some (GoError.LogError "stderr"))).1
    ((exampleClosure [ruleUpper] [hello ++ hello] 200 (some (GoError.LogError "stderr")))
      (exampleServed (shortSink 7) [ruleUpper] [hello ++ hello] 200
        (some (GoError.LogError "stderr"))).1).1
    (exampleRun (shortSink 7) [ruleUpper] [hello ++ hello] 200
      (some (GoError.LogError "stderr"))).wrapper
    200 7 (some (GoError.LogError "stderr")) [72, 69, 76, 76, 79, 72, 69, 76, 76, 79]
    rfl rfl (Or.inr ⟨"stderr", rfl⟩) rfl rfl rfl rfl
  have h10 := RewriteResponse_short_write plainMethods (shortSink 10) plainRequest
    ((exampleHandler [ruleUpper] [hello ++ hello] 200
      (some (GoError.LogError "stderr"))).beforeFirstWrite plainRequest)
    (exampleClosure [ruleUpper] [hello ++ hello] 200 (some (GoError.LogError "stderr"))) 100
    (scriptedHandler [hello ++ hello] 200 (some (GoError.LogError "stderr")))
    (exampleServed (shortSink 10) [ruleUpper] [hello ++ hello] 200
      (some (GoError.LogError "stderr"))).1
    ((exampleClosure [ruleUpper] [hello ++ hello] 200 (some (GoError.LogError "stderr")))
      (exampleServed (shortSink 10) [ruleUpper] [hello ++ hello] 200
        (some (GoError.LogError "stderr"))).1).1
    (exampleRun (shortSink 10) [ruleUpper] [hello ++ hello] 200
      (some (GoError.LogError "stderr"))).wrapper
    200 10 (some (GoError.LogError "stderr")) [72, 69, 76, 76, 79, 72, 69, 76, 76, 79]
    rfl rfl (Or.inr ⟨"stderr", rfl⟩) rfl rfl rfl rfl
  exact ⟨(h7.2.1 (by decide)).1, h7.1, h10.2.2 (by decide)⟩

/-- C10. A fatal handler error aborts finalization: when the interceptor was not skipped and
the handler returns an error that is not a `fastcgi.LogError`, `RewriteResponse` returns the
handler's status with that same error, and does nothing else: the interceptor and the real
sink in it are as the handler left them (no header or status commit, no `Content-Length`
change, no body write) and no finalization call is made (not the body-retrieval closure
either). -/
theorem RewriteResponse_fatal_error (m : wrapperMethods) (writer : ResponseWriter)
    (request : Request) (p : Header → Bool)
    (cb : responseWriterWrapper → responseWriterWrapper × (Bool × Bytes)) (ceiling : Int)
    (next : Handler) (w1 : responseWriterWrapper) (result : Int) (e : GoError)
    (hserved : served writer request p ceiling next = (w1, (result, some e)))
    (hskip : w1.skipped = false)
    (hfatal : ∀ t, e ≠ GoError.LogError t) :
    (RewriteResponse m writer request p cb ceiling next).result = result ∧
      (RewriteResponse m writer request p cb ceiling next).err = some e ∧
      (RewriteResponse m writer request p cb ceiling next).wrapper = w1 ∧
      (RewriteResponse m writer request p cb ceiling next).steps = [] ∧
      (RewriteResponse m writer request p cb ceiling next).wrapper.delegate.headerCommits =
        w1.delegate.headerCommits ∧
      (RewriteResponse m writer request p cb ceiling next).wrapper.delegate.writes =
        w1.delegate.writes ∧
      (RewriteResponse m writer request p cb ceiling next).wrapper.Header = w1.Header := by
  unfold served at hserved
  have hno : asLogError e = none := by
    cases e with
    | LogError t => exact absurd rfl (hfatal t)
    | ErrShortWrite => rfl
    | other t => rfl
  have hrun : RewriteResponse m writer request p cb ceiling next =
      { wrapper := w1, steps := [], result := result, err := some e } := by
    simp [RewriteResponse, hserved, hskip, hno]
  rw [hrun]
  exact ⟨rfl, rfl, rfl, rfl, rfl, rfl, rfl⟩

/-- A handler that wrote `"hello"` (recorded) and returns 500 with an error that is no
`LogError`: the pair comes back as it is, the sink got no status and no byte, the
`Content-Length` of the handler stays, and the closure was not called. -/
theorem RewriteResponse_fatal_error_witness :
    (exampleRun (sinkWithLength ["5"]) [ruleUpper] [hello] 500
        (some (GoError.other "boom"))).result = 500 ∧
      (exampleRun (sinkWithLength ["5"]) [ruleUpper] [hello] 500
        (some (GoError.other "boom"))).err = some (GoError.other "boom") ∧
      (exampleRun (sinkWithLength ["5"]) [ruleUpper] [hello] 500
        (some (GoError.other "boom"))).steps = [] ∧
      (exampleRun (sinkWithLength ["5"]) [ruleUpper] [hello] 500
        (some (GoError.other "boom"))).wrapper.delegate.writes = [] ∧
      (exampleRun (sinkWithLength ["5"]) [ruleUpper] [hello] 500
        (some (GoError.other "boom"))).wrapper.delegate.headerCommits = [] ∧
      (exampleRun (sinkWithLength ["5"]) [ruleUpper] [hello] 500
        (some (GoError.other "boom"))).wrapper.recorded = hello := by
  have h := RewriteResponse_fatal_error plainMethods (sinkWithLength ["5"]) plainRequest
    ((exampleHandler [ruleUpper] [hello] 500
      (some (GoError.other "boom"))).beforeFirstWrite plainRequest)
    (exampleClosure [ruleUpper] [hello] 500 (some (GoError.other "boom"))) 100
    (scriptedHandler [hello] 500 (some (GoError.other "boom")))
    (exampleServed (sinkWithLength ["5"]) [ruleUpper] [hello] 500
      (some (GoError.other "boom"))).1
    500 (GoError.other "boom") rfl rfl (fun t ht => by cases ht)
  exact ⟨h.1, h.2.1, h.2.2.2.1, by decide, by decide, by decide⟩

/-- Soft error deferral, relative to the run without error: a run of `RewriteResponse` whose
handler returns a `fastcgi.LogError` leaves the interceptor and the real sink exactly as the
run whose handler does the same and returns nil, with the same finalization calls and the
same status; it returns the `LogError` when the nil-error run returns nil, and otherwise the
error of the nil-error run (the write error or `io.ErrShortWrite`) in its place.  Whether the
nil-error run notices a short write is a separate matter, see
`RewriteResponse_verbatim_count_unchecked`. -/
theorem RewriteResponse_soft_error_deferred (m : wrapperMethods) (writer : ResponseWriter)
    (request : Request) (p : Header → Bool)
    (cb : responseWriterWrapper → responseWriterWrapper × (Bool × Bytes)) (ceiling : Int)
    (next soft : Handler) (w1 : responseWriterWrapper) (result : Int) (t : String)
    (hnil : served writer request p ceiling next = (w1, (result, none)))
    (hsoft : served writer request p ceiling soft =
      (w1, (result, some (GoError.LogError t)))) :
    (RewriteResponse m writer request p cb ceiling soft).wrapper =
        (RewriteResponse m writer request p cb ceiling next).wrapper ∧
      (RewriteResponse m writer request p cb ceiling soft).steps =
        (RewriteResponse m writer request p cb ceiling next).steps ∧
      (RewriteResponse m writer request p cb ceiling soft).result =
        (RewriteResponse m writer request p cb ceiling next).result ∧
      (RewriteResponse m writer request p cb ceiling soft).err =
        deferred (GoError.LogError t) (RewriteResponse m writer request p cb ceiling next).err ∧
      ((RewriteResponse m writer request p cb ceiling next).err = none →
        (RewriteResponse m writer request p cb ceiling soft).err =
          some (GoError.LogError t)) ∧
      (∀ e, (RewriteResponse m writer request p cb ceiling next).err = some e →
        (RewriteResponse m writer request p cb ceiling soft).err = some e) := by
  unfold served at hnil hsoft
  have key : (RewriteResponse m writer request p cb ceiling soft).wrapper =
        (RewriteResponse m writer request p cb ceiling next).wrapper ∧
      (RewriteResponse m writer request p cb ceiling soft).steps =
        (RewriteResponse m writer request p cb ceiling next).steps ∧
      (RewriteResponse m writer request p cb ceiling soft).result =
        (RewriteResponse m writer request p cb ceiling next).result ∧
      (RewriteResponse m writer request p cb ceiling soft).err =
        deferred (GoError.LogError t)
          (RewriteResponse m writer request p cb ceiling next).err := by
    simp only [RewriteResponse, hnil, hsoft]
    cases hskip : w1.skipped
    · cases hreq : m.isInterceptingRequired w1 <;> cases hall : w1.isBodyAllowed <;>
        simp [asLogError, deferred, hall]
      cases hcap : (cb w1).2.1
      · cases hw : (m.writeRecordedToDelegate (cb w1).1 result).2.2 <;> simp [hw]
        split_ifs <;> simp
      · cases hw : (m.writeToDelegateAndEncodeIfRequired
          (if (Header.Get (cb w1).1.Header "Content-Length").length > 0 then
            ((cb w1).1.withHeader ((cb w1).1.Header.Set "Content-Length"
              (Itoa ((cb w1).2.2.length : Int))),
              [Step.setContentLength (Itoa ((cb w1).2.2.length : Int))])
          else ((cb w1).1, [])).1 (cb w1).2.2 result).2.2 <;> simp [hw]
        split_ifs <;> simp
    · simp [deferred]
  obtain ⟨h1, h2, h3, h4⟩ := key
  refine ⟨h1, h2, h3, h4, ?_, ?_⟩
  · intro h0
    rw [h4, h0]
    rfl
  · intro e he
    rw [h4, he]
    rfl

/-- A handler that wrote ten bytes and returns a soft error: when the sink takes them all the
soft error comes back, after the same commit and write as in the run without error; when the
sink reports 7 bytes, `io.ErrShortWrite` comes back in its place. -/
theorem RewriteResponse_soft_error_deferred_witness :
    (RewriteResponse plainMethods (newMockResponseWriter none) plainRequest (fun _ => true)
        (exampleClosure [ruleUpper] [] 200 none) 100
        (scriptedHandler [hello ++ hello] 200 (some (GoError.LogError "stderr")))).err =
        some (GoError.LogError "stderr") ∧
      (RewriteResponse plainMethods (newMockResponseWriter none) plainRequest (fun _ => true)
        (exampleClosure [ruleUpper] [] 200 none) 100
        (scriptedHandler [hello ++ hello] 200
          (some (GoError.LogError "stderr")))).wrapper.delegate.writes =
        [[72, 69, 76, 76, 79, 72, 69, 76, 76, 79]] ∧
      (RewriteResponse plainMethods (shortSink 7) plainRequest (fun _ => true)
        (exampleClosure [ruleUpper] [] 200 none) 100
        (scriptedHandler [hello ++ hello] 200 (some (GoError.LogError "stderr")))).err =
        some GoError.ErrShortWrite := by
  have hfull := RewriteResponse_soft_error_deferred plainMethods (newMockResponseWriter none)
    plainRequest (fun _ => true) (exampleClosure [ruleUpper] [] 200 none) 100
    (scriptedHandler [hello ++ hello] 200 none)
    (scriptedHandler [hello ++ hello] 200 (some (GoError.LogError "stderr")))
    (served (newMockResponseWriter none) plainRequest (fun _ => true) 100
      (scriptedHandler [hello ++ hello] 200 none)).1
    200 "stderr" rfl rfl
  have hshort := RewriteResponse_soft_error_deferred plainMethods (shortSink 7)
    plainRequest (fun _ => true) (exampleClosure [ruleUpper] [] 200 none) 100
    (scriptedHandler [hello ++ hello] 200 none)
    (scriptedHandler [hello ++ hello] 200 (some (GoError.LogError "stderr")))
    (served (shortSink 7) plainRequest (fun _ => true) 100
      (scriptedHandler [hello ++ hello] 200 none)).1
    200 "stderr" rfl rfl
  exact ⟨hfull.2.2.2.2.1 (by decide), hfull.1.symm ▸ (by decide),
    hshort.2.2.2.2.2 GoError.ErrShortWrite (by decide)⟩

/-- C12. Streaming-upgrade bypass: `filterHandler.ServeHTTP` runs the downstream handler on the
real sink and returns what it returns, whatever the rules and the ceiling are (no interceptor,
no predicate, no rule is involved), exactly when the request method is `GET` and the request
header `Upgrade` is `websocket`; for every other request the result is that of
`RewriteResponse` with the handler's own should-record predicate, body-retrieval closure,
ceiling and downstream handler. -/
theorem ServeHTTP_websocket_bypass (self : filterHandler) (m : wrapperMethods)
    (writer : ResponseWriter) (request : Request) :
    ((request.Method = "GET" ∧ request.Header.Get "Upgrade" = "websocket") →
      self.ServeHTTP m writer request = Sum.inl (self.next.serveSink writer request) ∧
        ∀ (rules : List rule) (ceiling : Int),
          filterHandler.ServeHTTP
              { next := self.next, rules := rules, maximumBufferSize := ceiling }
              m writer request =
            Sum.inl (self.next.serveSink writer request)) ∧
      (¬ (request.Method = "GET" ∧ request.Header.Get "Upgrade" = "websocket") →
        self.ServeHTTP m writer request =
          Sum.inr (RewriteResponse m writer request (self.beforeFirstWrite request)
            (self.bodyIsRetrieved m request) self.maximumBufferSize self.next)) ∧
      ((∃ direct, self.ServeHTTP m writer request = Sum.inl direct) ↔
        (request.Method = "GET" ∧ request.Header.Get "Upgrade" = "websocket")) := by
  by_cases h : request.Method = "GET" ∧ request.Header.Get "Upgrade" = "websocket"
  · have hrun : ∀ f : filterHandler, f.ServeHTTP m writer request =
        Sum.inl (f.next.serveSink writer request) := by
      intro f
      simp [filterHandler.ServeHTTP, h.1, h.2]
    refine ⟨fun _ => ⟨hrun self, fun rules ceiling => hrun _⟩, fun hn => absurd h hn, ?_⟩
    exact ⟨fun _ => h, fun _ => ⟨_, hrun self⟩⟩
  · have hrun : self.ServeHTTP m writer request =
        Sum.inr (RewriteResponse m writer request (self.beforeFirstWrite request)
          (self.bodyIsRetrieved m request) self.maximumBufferSize self.next) := by
      have hc : (request.Method == "GET" && request.Header.Get "Upgrade" == "websocket") =
          false := by
        simpa using h
      simp [filterHandler.ServeHTTP, hc]
    refine ⟨fun hy => absurd hy h, fun _ => hrun, ?_⟩
    constructor
    · rintro ⟨direct, hd⟩
      rw [hrun] at hd
      cases hd
    · intro hy
      exact absurd hy h

/-- A `GET` request with `Upgrade: websocket` goes to the real sink, which receives the
handler's bytes at once although a rule matches; with `Upgrade: WebSocket`, or with the
method `POST`, the run goes through `RewriteResponse`. -/
theorem ServeHTTP_websocket_bypass_witness :
    (exampleHandler [ruleUpper] [hello] 200 none).ServeHTTP plainMethods
        (newMockResponseWriter none) websocketRequest =
        Sum.inl ((scriptedHandler [hello] 200 none).serveSink (newMockResponseWriter none)
          websocketRequest) ∧
      ((scriptedHandler [hello] 200 none).serveSink (newMockResponseWriter none)
        websocketRequest).1.writes = [hello] ∧
      (∃ run, (exampleHandler [ruleUpper] [hello] 200 none).ServeHTTP plainMethods
        (newMockResponseWriter none)
        { Method := "GET", Header := [("Upgrade", ["WebSocket"])] } = Sum.inr run) ∧
      (∃ run, (exampleHandler [ruleUpper] [hello] 200 none).ServeHTTP plainMethods
        (newMockResponseWriter none)
        { Method := "POST", Header := [("Upgrade", ["websocket"])] } = Sum.inr run) := by
  have hws := ServeHTTP_websocket_bypass (exampleHandler [ruleUpper] [hello] 200 none)
    plainMethods (newMockResponseWriter none) websocketRequest
  have hcase := ServeHTTP_websocket_bypass (exampleHandler [ruleUpper] [hello] 200 none)
    plainMethods (newMockResponseWriter none)
    { Method := "GET", Header := [("Upgrade", ["WebSocket"])] }
  have hpost := ServeHTTP_websocket_bypass (exampleHandler [ruleUpper] [hello] 200 none)
    plainMethods (newMockResponseWriter none)
    { Method := "POST", Header := [("Upgrade", ["websocket"])] }
  exact ⟨(hws.1 ⟨rfl, by decide⟩).1, by decide, ⟨_, hcase.2.1 (by decide)⟩,
    ⟨_, hpost.2.1 (by decide)⟩⟩

/-- C13, as amended. Header-only finalization: in a run of `RewriteResponse` in which the
interceptor was not skipped, the handler's error is nil or soft, and either interception is
not required or the status forbids a body, the only finalization call is one
`writeHeadersToDelegate` with the handler's status, made on the interceptor as the handler
left it; the body-retrieval closure is not called, `Content-Length` is not rewritten, neither
body write is made, and the result is the handler's status with the soft error or nil. -/
theorem RewriteResponse_header_only (m : wrapperMethods) (writer : ResponseWriter)
    (request : Request) (p : Header → Bool)
    (cb : responseWriterWrapper → responseWriterWrapper × (Bool × Bytes)) (ceiling : Int)
    (next : Handler) (w1 : responseWriterWrapper) (result : Int) (err : Option GoError)
    (hserved : served writer request p ceiling next = (w1, (result, err)))
    (hskip : w1.skipped = false)
    (herr : err = none ∨ ∃ t, err = some (GoError.LogError t))
    (hcond : m.isInterceptingRequired w1 = false ∨ w1.isBodyAllowed = false) :
    (RewriteResponse m writer request p cb ceiling next).wrapper =
        m.writeHeadersToDelegate w1 result ∧
      (RewriteResponse m writer request p cb ceiling next).steps =
        [Step.writeHeadersToDelegate result] ∧
      Step.bodyIsRetrieved ∉ (RewriteResponse m writer request p cb ceiling next).steps ∧
      (∀ v, Step.setContentLength v ∉
        (RewriteResponse m writer request p cb ceiling next).steps) ∧
      (∀ body status, Step.writeToDelegateAndEncodeIfRequired body status ∉
        (RewriteResponse m writer request p cb ceiling next).steps) ∧
      (∀ status, Step.writeRecordedToDelegate status ∉
        (RewriteResponse m writer request p cb ceiling next).steps) ∧
      (RewriteResponse m writer request p cb ceiling next).result = result ∧
      (RewriteResponse m writer request p cb ceiling next).err = err := by
  unfold served at hserved
  have hgo : (!m.isInterceptingRequired w1 || !w1.isBodyAllowed) = true := by
    rcases hcond with h | h <;> simp [h]
  have hrun : RewriteResponse m writer request p cb ceiling next =
      { wrapper := m.writeHeadersToDelegate w1 result
        steps := [Step.writeHeadersToDelegate result]
        result := result, err := err } := by
    rcases herr with h | ⟨t, h⟩ <;> subst h <;>
      simp [RewriteResponse, hserved, hskip, hgo, asLogError]
  rw [hrun]
  simp

/-- A handler that sets the status 204, writes `"hello"` (recorded) and returns `(204, nil)`:
the one finalization call is the commit, the sink gets the status 204 and no byte, and the
recorded bytes stay in the buffer. -/
theorem RewriteResponse_header_only_witness :
    (RewriteResponse plainMethods (newMockResponseWriter none) plainRequest (fun _ => true)
        (exampleClosure [ruleUpper] [] 204 none) 100
        (callsHandler [Call.WriteHeader 204, Call.Write hello] 204 none)).steps =
        [Step.writeHeadersToDelegate 204] ∧
      (RewriteResponse plainMethods (newMockResponseWriter none) plainRequest (fun _ => true)
        (exampleClosure [ruleUpper] [] 204 none) 100
        (callsHandler [Call.WriteHeader 204, Call.Write hello] 204
          none)).wrapper.delegate.headerCommits = [204] ∧
      (RewriteResponse plainMethods (newMockResponseWriter none) plainRequest (fun _ => true)
        (exampleClosure [ruleUpper] [] 204 none) 100
        (callsHandler [Call.WriteHeader 204, Call.Write hello] 204
          none)).wrapper.delegate.writes = [] ∧
      (RewriteResponse plainMethods (newMockResponseWriter none) plainRequest (fun _ => true)
        (exampleClosure [ruleUpper] [] 204 none) 100
        (callsHandler [Call.WriteHeader 204, Call.Write hello] 204
          none)).wrapper.recorded = hello := by
  have h := RewriteResponse_header_only plainMethods (newMockResponseWriter none) plainRequest
    (fun _ => true) (exampleClosure [ruleUpper] [] 204 none) 100
    (callsHandler [Call.WriteHeader 204, Call.Write hello] 204 none)
    (served (newMockResponseWriter none) plainRequest (fun _ => true) 100
      (callsHandler [Call.WriteHeader 204, Call.Write hello] 204 none)).1
    204 none rfl rfl (Or.inl rfl) (Or.inr rfl)
  exact ⟨h.2.1, by decide, by decide, by decide⟩

/-- C13, the claim as stated fails.  A handler sets the status 204, leaves the interceptor
marked `skipped` and returns `(204, nil)`: the error is nil and the status forbids a body,
and `RewriteResponse` returns at `filter.go:59-61` without any finalization call: no commit
reaches the real sink. -/
theorem RewriteResponse_header_only_counterexample :
    (served (newMockResponseWriter none) plainRequest (fun _ => true) 100
        skippingHandler).2.2 = none ∧
      (served (newMockResponseWriter none) plainRequest (fun _ => true) 100
        skippingHandler).1.isBodyAllowed = false ∧
      (RewriteResponse plainMethods (newMockResponseWriter none) plainRequest (fun _ => true)
        (exampleClosure [ruleUpper] [] 204 none) 100 skippingHandler).steps = [] ∧
      (RewriteResponse plainMethods (newMockResponseWriter none) plainRequest (fun _ => true)
        (exampleClosure [ruleUpper] [] 204 none) 100
        skippingHandler).wrapper.delegate.headerCommits = [] := by
  exact ⟨rfl, by decide, by decide, by decide⟩

theorem beforeFirstWriteLoop_eq_any (request : Request) (header : Header)
    (rules : List rule) :
    beforeFirstWriteLoop request header rules =
      rules.any (fun r => r.matches request header) := by
  induction rules with
  | nil => rfl
  | cons r rest ih =>
    cases hm : r.matches request header <;> simp [beforeFirstWriteLoop, hm, ih]

/-- C14. The should-record predicate of `filterHandler.ServeHTTP` returns true exactly when
some rule of the list matches the request and the header set; it returns false for the empty
rule list, and two handlers whose rule lists are permutations of each other have the same
predicate. -/
theorem beforeFirstWrite_any_rule (self : filterHandler) (request : Request)
    (header : Header) :
    (self.beforeFirstWrite request header = true ↔
        ∃ r ∈ self.rules, r.matches request header = true) ∧
      (self.rules = [] → self.beforeFirstWrite request header = false) ∧
      (∀ other : filterHandler, self.rules.Perm other.rules →
        other.beforeFirstWrite request header = self.beforeFirstWrite request header) := by
  have hiff : ∀ f : filterHandler, (f.beforeFirstWrite request header = true ↔
      ∃ r ∈ f.rules, r.matches request header = true) := by
    intro f
    simp [filterHandler.beforeFirstWrite, beforeFirstWriteLoop_eq_any]
  refine ⟨hiff self, ?_, ?_⟩
  · intro hnil
    simp [filterHandler.beforeFirstWrite, hnil, beforeFirstWriteLoop]
  · intro other hperm
    have h : (other.beforeFirstWrite request header = true ↔
        self.beforeFirstWrite request header = true) := by
      rw [hiff other, hiff self]
      constructor
      · rintro ⟨r, hr, hm⟩
        exact ⟨r, hperm.mem_iff.mpr hr, hm⟩
      · rintro ⟨r, hr, hm⟩
        exact ⟨r, hperm.mem_iff.mp hr, hm⟩
    cases ho : other.beforeFirstWrite request header <;>
      cases hs : self.beforeFirstWrite request header <;> simp_all

/-- The predicate over a rule that never matches and one that always matches is true in
either order, and it is false over the rule that never matches alone. -/
theorem beforeFirstWrite_any_rule_witness :
    (exampleHandler [ruleNever, ruleUpper] [] 200 none).beforeFirstWrite plainRequest [] =
        true ∧
      (exampleHandler [ruleUpper, ruleNever] [] 200 none).beforeFirstWrite plainRequest [] =
        true ∧
      (exampleHandler [ruleNever] [] 200 none).beforeFirstWrite plainRequest [] = false ∧
      (exampleHandler [] [] 200 none).beforeFirstWrite plainRequest [] = false := by
  have h := beforeFirstWrite_any_rule (exampleHandler [ruleNever, ruleUpper] [] 200 none)
    plainRequest []
  have h0 := beforeFirstWrite_any_rule (exampleHandler [] [] 200 none) plainRequest []
  refine ⟨h.1.mpr ⟨ruleUpper, by simp [exampleHandler], rfl⟩, ?_, by decide, h0.2.1 rfl⟩
  exact (h.2.2 (exampleHandler [ruleUpper, ruleNever] [] 200 none)
    (List.Perm.swap ruleUpper ruleNever [])).trans
    (h.1.mpr ⟨ruleUpper, by simp [exampleHandler], rfl⟩)

/-! ## The buffer bound -/

theorem Write_decided_ceiling (w : responseWriterWrapper) (c : Bytes)
    (h : w.firstContentWritten = true) :
    (w.Write c).1.maximumBufferSize = w.maximumBufferSize := by
  cases hbuf : w.buffer with
  | none => rw [Write_passthrough w c h hbuf]
  | some b0 =>
    by_cases hover : (b0.length : Int) + (c.length : Int) > w.maximumBufferSize
    · rw [Write_recording_overflow w b0 c h hbuf hover]
    · rw [Write_recording_fits w b0 c h hbuf (not_lt.mp hover)]

theorem Write_keeps_ceiling (w : responseWriterWrapper) (c : Bytes) :
    (w.Write c).1.maximumBufferSize = w.maximumBufferSize := by
  cases hf : w.firstContentWritten with
  | true => exact Write_decided_ceiling w c hf
  | false =>
    by_cases hc : c = []
    · subst hc
      rw [Write_init_empty w hf]
    · rw [Write_first w c hf hc]
      exact Write_decided_ceiling (decided w) c rfl

theorem Write_decided_bound (w : responseWriterWrapper) (c b : Bytes)
    (h : w.firstContentWritten = true) (hb : (w.Write c).1.buffer = some b) :
    (b.length : Int) ≤ w.maximumBufferSize := by
  cases hbuf : w.buffer with
  | none =>
    rw [Write_passthrough w c h hbuf] at hb
    simp [hbuf] at hb
  | some b0 =>
    by_cases hover : (b0.length : Int) + (c.length : Int) > w.maximumBufferSize
    · rw [Write_recording_overflow w b0 c h hbuf hover] at hb
      simp at hb
    · rw [Write_recording_fits w b0 c h hbuf (not_lt.mp hover)] at hb
      simp only [Option.some.injEq] at hb
      subst hb
      have := not_lt.mp hover
      simpa using this

theorem Write_bound (w : responseWriterWrapper) (c : Bytes)
    (hinv : ∀ b, w.buffer = some b → (b.length : Int) ≤ w.maximumBufferSize) :
    ∀ b, (w.Write c).1.buffer = some b → (b.length : Int) ≤ (w.Write c).1.maximumBufferSize := by
  intro b hb
  rw [Write_keeps_ceiling]
  cases hf : w.firstContentWritten with
  | true => exact Write_decided_bound w c b hf hb
  | false =>
    by_cases hc : c = []
    · subst hc
      rw [Write_init_empty w hf] at hb
      exact hinv b hb
    · rw [Write_first w c hf hc] at hb
      exact Write_decided_bound (decided w) c b rfl hb

theorem runCalls_bound (calls : List Call) (w : responseWriterWrapper)
    (hinv : ∀ b, w.buffer = some b → (b.length : Int) ≤ w.maximumBufferSize) :
    (runCalls w calls).maximumBufferSize = w.maximumBufferSize ∧
      ∀ b, (runCalls w calls).buffer = some b → (b.length : Int) ≤ w.maximumBufferSize := by
  induction calls generalizing w with
  | nil => exact ⟨rfl, hinv⟩
  | cons call rest ih =>
    cases call with
    | Write c =>
      have hstep := Write_bound w c hinv
      have hkeep := Write_keeps_ceiling w c
      obtain ⟨h1, h2⟩ := ih (w.Write c).1 hstep
      exact ⟨h1.trans hkeep, fun b hb => hkeep ▸ h2 b hb⟩
    | WriteHeader status =>
      obtain ⟨h1, h2⟩ := ih (w.WriteHeader status) hinv
      exact ⟨h1, h2⟩

theorem runCalls_passthrough (calls : List Call) (w : responseWriterWrapper)
    (h : w.firstContentWritten = true) (hb : w.buffer = none) :
    (runCalls w calls).firstContentWritten = true ∧ (runCalls w calls).buffer = none := by
  induction calls generalizing w with
  | nil => exact ⟨h, hb⟩
  | cons call rest ih =>
    cases call with
    | Write c =>
      obtain ⟨h1, _, h3⟩ := Write_decided_frame w c h
      exact ih (w.Write c).1 h1 (h3 hb)
    | WriteHeader status => exact ih (w.WriteHeader status) h hb

/-- C15. The buffer bound: in every state that a sequence of `Write` and `WriteHeader` calls
reaches from a fresh interceptor, the ceiling is the one the interceptor was built with and a
buffer that is present holds at most that many bytes; and once a write in Recording mode
would exceed the ceiling, the interceptor is in Passthrough mode (decision taken, no buffer)
right after it and after every later sequence of calls. -/
theorem buffer_bound_invariant :
    (∀ (d : ResponseWriter) (p : Header → Bool) (ceiling : Int) (calls : List Call),
      (runCalls (newResponseWriterWrapperFor d p ceiling) calls).maximumBufferSize = ceiling ∧
        ∀ b, (runCalls (newResponseWriterWrapperFor d p ceiling) calls).buffer = some b →
          (b.length : Int) ≤ ceiling) ∧
    (∀ (w : responseWriterWrapper) (b c : Bytes) (later : List Call),
      w.firstContentWritten = true → w.buffer = some b →
      (b.length : Int) + (c.length : Int) > w.maximumBufferSize →
      (runCalls (w.Write c).1 later).firstContentWritten = true ∧
        (runCalls (w.Write c).1 later).buffer = none) ∧
    (∀ (w : responseWriterWrapper) (c : Bytes) (later : List Call),
      w.firstContentWritten = false → c ≠ [] → (c.length : Int) > w.maximumBufferSize →
      (runCalls (w.Write c).1 later).firstContentWritten = true ∧
        (runCalls (w.Write c).1 later).buffer = none) := by
  refine ⟨?_, ?_, ?_⟩
  · intro d p ceiling calls
    exact runCalls_bound calls (newResponseWriterWrapperFor d p ceiling)
      (fun b hb => by simp [newResponseWriterWrapperFor] at hb)
  · intro w b c later hf hb hover
    have hstep := Write_recording_overflow w b c hf hb hover
    exact runCalls_passthrough later (w.Write c).1 (by rw [hstep]; exact hf) (by rw [hstep])
  · intro w c later hf hc hover
    have hfirst := Write_first w c hf hc
    obtain ⟨h1, _, h3⟩ := Write_decided_frame (decided w) c rfl
    have hnone : ((decided w).Write c).1.buffer = none := by
      cases hp : w.beforeFirstWrite w.Header with
      | false => exact h3 (by simp [decided, hp])
      | true =>
        have hb : (decided w).buffer = some [] := by simp [decided, hp]
        have hover2 : (([] : Bytes).length : Int) + (c.length : Int) >
            (decided w).maximumBufferSize := by
          simpa [decided] using hover
        rw [Write_recording_overflow (decided w) [] c rfl hb hover2]
    rw [hfirst]
    exact runCalls_passthrough later _ h1 hnone

/-- The run of `Test_WriteWithBufferOverflow` continued: with the ceiling 5, `"foo"` is
buffered within the ceiling; `"bar"` would exceed it, and after it and after the later calls
`WriteHeader(200)`, `Write("foo")` no buffer is present. -/
theorem buffer_bound_invariant_witness :
    (runCalls (newResponseWriterWrapperFor (newMockResponseWriter none) (fun _ => true) 5)
        [Call.Write foo]).buffer = some foo ∧
      (runCalls (overflowExample.Write bar).1
        [Call.WriteHeader 200, Call.Write foo]).buffer = none ∧
      (runCalls (overflowExample.Write bar).1
        [Call.WriteHeader 200, Call.Write foo]).delegate.writes = [foo ++ bar, foo] := by
  have h := buffer_bound_invariant.2.1 overflowExample foo bar
    [Call.WriteHeader 200, Call.Write foo] rfl rfl (by decide)
  exact ⟨by decide, h.2, by decide⟩

/-! ## The verbatim flush, the status and the second body-allowed check -/

/-- The run of `RewriteResponse` when the handler's error is nil or soft, interception is
required, the status allows a body and the closure reports that no body was captured. -/
theorem RewriteResponse_not_captured (m : wrapperMethods) (writer : ResponseWriter)
    (request : Request) (p : Header → Bool)
    (cb : responseWriterWrapper → responseWriterWrapper × (Bool × Bytes)) (ceiling : Int)
    (next : Handler) (w1 w2 : responseWriterWrapper) (result : Int) (err : Option GoError)
    (body : Bytes)
    (hserved : served writer request p ceiling next = (w1, (result, err)))
    (hskip : w1.skipped = false)
    (herr : err = none ∨ ∃ t, err = some (GoError.LogError t))
    (hreq : m.isInterceptingRequired w1 = true) (hallowed : w1.isBodyAllowed = true)
    (hcb : cb w1 = (w2, (false, body))) :
    RewriteResponse m writer request p cb ceiling next =
      { wrapper := (m.writeRecordedToDelegate w2 result).1
        steps := [Step.bodyIsRetrieved, Step.writeRecordedToDelegate result]
        result := result
        err :=
          match (m.writeRecordedToDelegate w2 result).2.2 with
          | some e => some e
          | none =>
            if (m.writeRecordedToDelegate w2 result).2.1 < (body.length : Int)
            then some GoError.ErrShortWrite else err } := by
  unfold served at hserved
  rcases herr with h | ⟨t, h⟩ <;> subst h <;>
    cases hout : (m.writeRecordedToDelegate w2 result).2.2 <;>
    simp [RewriteResponse, hserved, hskip, hreq, hallowed, hcb, hout, asLogError] <;>
    split_ifs <;> rfl

theorem bodyIsRetrieved_not_captured (self : filterHandler) (m : wrapperMethods)
    (request : Request) (wrapper : responseWriterWrapper)
    (hcap : (self.bodyIsRetrieved m request wrapper).2.1 = false) :
    self.bodyIsRetrieved m request wrapper = (wrapper, (false, [])) ∧
      (self.retrieve m request wrapper).decodeCalls = 0 := by
  have hloop := bodyIsRetrievedLoop_fresh m request wrapper self.rules
    { header := wrapper.Header, body := [], bodyRetrieved := false, decodeCalls := 0 } rfl
  cases hany : self.rules.any (fun r => r.matches request wrapper.Header) with
  | true =>
    simp only [hany, if_true] at hloop
    simp [filterHandler.bodyIsRetrieved, filterHandler.retrieve, hloop] at hcap
  | false =>
    simp only [hany] at hloop
    simp only [filterHandler.bodyIsRetrieved, filterHandler.retrieve, hloop]
    exact ⟨rfl, rfl⟩

/-- C16. Verbatim flush when nothing was captured: in a run of `RewriteResponse` that reaches
the body-retrieval closure of `ServeHTTP` (not skipped, error nil or soft, interception
required, status allowing a body) and in which the closure reports captured = false, the
closure has run no rule and called no decode: it leaves the interceptor, and so the header
set with its `Content-Length`, exactly as the handler left it; the finalization calls are the
closure and one `writeRecordedToDelegate` on that interceptor, with no `Content-Length`
rewrite and no write of a transformed body; and with a `writeRecordedToDelegate` that commits
and then hands the recorded buffer to the sink, the sink receives the recorded bytes as one
unchanged payload and the header set stays as the handler left it. -/
theorem RewriteResponse_verbatim_flush (self : filterHandler) (m : wrapperMethods)
    (writer : ResponseWriter) (request : Request) (p : Header → Bool) (ceiling : Int)
    (next : Handler) (w1 : responseWriterWrapper) (result : Int) (err : Option GoError)
    (hserved : served writer request p ceiling next = (w1, (result, err)))
    (hskip : w1.skipped = false)
    (herr : err = none ∨ ∃ t, err = some (GoError.LogError t))
    (hreq : m.isInterceptingRequired w1 = true) (hallowed : w1.isBodyAllowed = true)
    (hcap : (self.bodyIsRetrieved m request w1).2.1 = false) :
    self.bodyIsRetrieved m request w1 = (w1, (false, [])) ∧
      (self.retrieve m request w1).decodeCalls = 0 ∧
      (RewriteResponse m writer request p (self.bodyIsRetrieved m request) ceiling
        next).wrapper = (m.writeRecordedToDelegate w1 result).1 ∧
      (RewriteResponse m writer request p (self.bodyIsRetrieved m request) ceiling
        next).steps = [Step.bodyIsRetrieved, Step.writeRecordedToDelegate result] ∧
      (∀ v, Step.setContentLength v ∉
        (RewriteResponse m writer request p (self.bodyIsRetrieved m request) ceiling
          next).steps) ∧
      (∀ body status, Step.writeToDelegateAndEncodeIfRequired body status ∉
        (RewriteResponse m writer request p (self.bodyIsRetrieved m request) ceiling
          next).steps) ∧
      (m.writeRecordedToDelegate = plainMethods.writeRecordedToDelegate →
        (RewriteResponse m writer request p (self.bodyIsRetrieved m request) ceiling
            next).wrapper.delegate.writes = w1.delegate.writes ++ [w1.recorded] ∧
          (RewriteResponse m writer request p (self.bodyIsRetrieved m request) ceiling
            next).wrapper.Header = w1.Header) := by
  obtain ⟨hcb, hdec⟩ := bodyIsRetrieved_not_captured self m request w1 hcap
  have hrun := RewriteResponse_not_captured m writer request p
    (self.bodyIsRetrieved m request) ceiling next w1 w1 result err [] hserved hskip herr hreq
    hallowed hcb
  refine ⟨hcb, hdec, by rw [hrun], by rw [hrun], ?_, ?_, ?_⟩
  · intro v
    rw [hrun]
    simp
  · intro body status
    rw [hrun]
    simp
  · intro hm
    rw [hrun, hm]
    exact ⟨rfl, rfl⟩

/-- A handler sets `X-Filter: on`, writes `"hello"` (recorded, the rule matches) and removes
the header again, so no rule matches at finalization: the sink receives `"hello"` unchanged
and `Content-Length: 5` stays. -/
theorem RewriteResponse_verbatim_flush_witness :
    (flipRun (sinkWithLength ["5"]) none).steps =
        [Step.bodyIsRetrieved, Step.writeRecordedToDelegate 200] ∧
      (flipRun (sinkWithLength ["5"]) none).wrapper.delegate.writes = [hello] ∧
      (flipRun (sinkWithLength ["5"]) none).wrapper.Header = [("Content-Length", ["5"])] ∧
      (flipRun (sinkWithLength ["5"]) none).err = none := by
  have h := RewriteResponse_verbatim_flush (flipFilter none) plainMethods
    (sinkWithLength ["5"]) plainRequest ((flipFilter none).beforeFirstWrite plainRequest) 100
    (flipHandler none)
    (served (sinkWithLength ["5"]) plainRequest ((flipFilter none).beforeFirstWrite plainRequest)
      100 (flipHandler none)).1
    200 none rfl rfl (Or.inl rfl) rfl rfl rfl
  exact ⟨h.2.2.2.1, (h.2.2.2.2.2.2 rfl).1.trans (by decide),
    (h.2.2.2.2.2.2 rfl).2.trans (by decide), by decide⟩

/-- On the verbatim path of a run through the closure of `ServeHTTP` the byte count is
compared with the length of the nil body that the closure returns, so every count that is not
negative passes: the result is the soft error or nil whatever the length of the recorded
bytes. -/
theorem RewriteResponse_verbatim_count_unchecked (self : filterHandler) (m : wrapperMethods)
    (writer : ResponseWriter) (request : Request) (p : Header → Bool) (ceiling : Int)
    (next : Handler) (w1 w3 : responseWriterWrapper) (result n : Int) (err : Option GoError)
    (hserved : served writer request p ceiling next = (w1, (result, err)))
    (hskip : w1.skipped = false)
    (herr : err = none ∨ ∃ t, err = some (GoError.LogError t))
    (hreq : m.isInterceptingRequired w1 = true) (hallowed : w1.isBodyAllowed = true)
    (hcap : (self.bodyIsRetrieved m request w1).2.1 = false)
    (hwrite : m.writeRecordedToDelegate w1 result = (w3, (n, none))) (hn : 0 ≤ n) :
    (RewriteResponse m writer request p (self.bodyIsRetrieved m request) ceiling next).err =
      err := by
  obtain ⟨hcb, _⟩ := bodyIsRetrieved_not_captured self m request w1 hcap
  rw [RewriteResponse_not_captured m writer request p (self.bodyIsRetrieved m request) ceiling
    next w1 w1 result err [] hserved hskip herr hreq hallowed hcb, hwrite]
  simp [not_lt.mpr hn]

/-- C17, the code at the failing input.  The handler records `"hello"` (5 bytes) and no rule
matches at finalization, so the recorded bytes are flushed unchanged; the real sink reports 3
bytes written and no error; `RewriteResponse` returns `(200, nil)`, not
`io.ErrShortWrite`.  On the transformed path the same sink gives `io.ErrShortWrite`. -/
theorem RewriteResponse_verbatim_short_write_unnoticed :
    (served (shortSink 3) plainRequest ((flipFilter none).beforeFirstWrite plainRequest) 100
        (flipHandler none)).1.recorded = hello ∧
      (flipRun (shortSink 3) none).steps =
        [Step.bodyIsRetrieved, Step.writeRecordedToDelegate 200] ∧
      (flipRun (shortSink 3) none).wrapper.delegate.writes = [hello] ∧
      (shortSink 3).respond [] hello = (3, none) ∧
      (flipRun (shortSink 3) none).result = 200 ∧
      (flipRun (shortSink 3) none).err = none ∧
      (exampleRun (shortSink 3) [ruleUpper] [hello] 200 none).err =
        some GoError.ErrShortWrite := by
  exact ⟨by decide, by decide, by decide, rfl, by decide, by decide, by decide⟩

/-- C11, the code at the failing input.  The handler records `"hello"` (5 bytes) and returns
the soft error; no rule matches at finalization, so the recorded bytes are flushed unchanged;
the real sink reports 3 bytes written and no error; `RewriteResponse` returns the soft
error, not `io.ErrShortWrite`.  On the transformed path the same sink and the same soft error
give `io.ErrShortWrite`. -/
theorem RewriteResponse_soft_error_over_short_flush :
    (served (shortSink 3) plainRequest
        ((flipFilter (some (GoError.LogError "stderr"))).beforeFirstWrite plainRequest) 100
        (flipHandler (some (GoError.LogError "stderr")))).1.recorded = hello ∧
      (flipRun (shortSink 3) (some (GoError.LogError "stderr"))).steps =
        [Step.bodyIsRetrieved, Step.writeRecordedToDelegate 200] ∧
      (flipRun (shortSink 3) (some (GoError.LogError "stderr"))).wrapper.delegate.writes =
        [hello] ∧
      (shortSink 3).respond [] hello = (3, none) ∧
      (flipRun (shortSink 3) (some (GoError.LogError "stderr"))).err =
        some (GoError.LogError "stderr") ∧
      (exampleRun (shortSink 3) [ruleUpper] [hello] 200
        (some (GoError.LogError "stderr"))).err = some GoError.ErrShortWrite := by
  exact ⟨by decide, by decide, by decide, rfl, by decide, by decide⟩

/-- C18. `RewriteResponse` never alters the status: whatever the sink, request, predicate,
closure, ceiling, handler and wrapper methods are, and whichever return is taken, the status
it returns is the status the downstream handler returned. -/
theorem RewriteResponse_status_unchanged (m : wrapperMethods) (writer : ResponseWriter)
    (request : Request) (p : Header → Bool)
    (cb : responseWriterWrapper → responseWriterWrapper × (Bool × Bytes)) (ceiling : Int)
    (next : Handler) :
    (RewriteResponse m writer request p cb ceiling next).result =
      (served writer request p ceiling next).2.1 := by
  simp only [RewriteResponse, served]
  split_ifs <;> (try rfl) <;> split <;> rfl

/-- C19. The second body-allowed check of `RewriteResponse` (`filter.go:77-79`) is never
taken: for every input `RewriteResponse` is equal to the same function without that branch;
and in every run that gets to the body-allowed checks (not skipped, error nil or soft) with a
status that forbids a body, the return taken is the one that commits the headers to the real
sink. -/
theorem RewriteResponse_second_check_unreachable :
    (∀ (m : wrapperMethods) (writer : ResponseWriter) (request : Request)
      (p : Header → Bool)
      (cb : responseWriterWrapper → responseWriterWrapper × (Bool × Bytes)) (ceiling : Int)
      (next : Handler),
      RewriteResponse m writer request p cb ceiling next =
        RewriteResponseWithoutSecondCheck m writer request p cb ceiling next) ∧
    (∀ (m : wrapperMethods) (writer : ResponseWriter) (request : Request)
      (p : Header → Bool)
      (cb : responseWriterWrapper → responseWriterWrapper × (Bool × Bytes)) (ceiling : Int)
      (next : Handler),
      (served writer request p ceiling next).1.skipped = false →
      ((served writer request p ceiling next).2.2 = none ∨
        ∃ t, (served writer request p ceiling next).2.2 = some (GoError.LogError t)) →
      (served writer request p ceiling next).1.isBodyAllowed = false →
      (RewriteResponse m writer request p cb ceiling next).steps =
          [Step.writeHeadersToDelegate (served writer request p ceiling next).2.1] ∧
        (RewriteResponse m writer request p cb ceiling next).wrapper =
          m.writeHeadersToDelegate (served writer request p ceiling next).1
            (served writer request p ceiling next).2.1) := by
  constructor
  · intro m writer request p cb ceiling next
    simp only [RewriteResponse, RewriteResponseWithoutSecondCheck]
    cases hall : (next.serveWrapper (newResponseWriterWrapperFor writer p ceiling)
      request).1.isBodyAllowed <;> simp [hall]
  · intro m writer request p cb ceiling next hskip herr hall
    simp only [served] at hskip herr hall
    simp only [RewriteResponse, served]
    rcases herr with h | ⟨t, h⟩ <;> simp [hskip, hall, h, asLogError]

/-- The run of a handler that sets the status 204 and writes `"hello"`: with and without the
second check the run is the same, and its one finalization call is the commit. -/
theorem RewriteResponse_second_check_unreachable_witness :
    RewriteResponse plainMethods (newMockResponseWriter none) plainRequest (fun _ => true)
        (exampleClosure [ruleUpper] [] 204 none) 100
        (callsHandler [Call.WriteHeader 204, Call.Write hello] 204 none) =
      RewriteResponseWithoutSecondCheck plainMethods (newMockResponseWriter none) plainRequest
        (fun _ => true) (exampleClosure [ruleUpper] [] 204 none) 100
        (callsHandler [Call.WriteHeader 204, Call.Write hello] 204 none) ∧
      (RewriteResponse plainMethods (newMockResponseWriter none) plainRequest (fun _ => true)
        (exampleClosure [ruleUpper] [] 204 none) 100
        (callsHandler [Call.WriteHeader 204, Call.Write hello] 204 none)).steps =
        [Step.writeHeadersToDelegate 204] :=
  ⟨RewriteResponse_second_check_unreachable.1 _ _ _ _ _ _ _,
    (RewriteResponse_second_check_unreachable.2 plainMethods (newMockResponseWriter none)
      plainRequest (fun _ => true) (exampleClosure [ruleUpper] [] 204 none) 100
      (callsHandler [Call.WriteHeader 204, Call.Write hello] 204 none) rfl (Or.inl rfl)
      rfl).1⟩

end CaddyFilter
